import Mathlib

/-!
# Verification of the MyPaint tiled-canvas view/renderer core

A shallow embedding of `gui/tileddrawwidget.py` (class `TiledDrawWidget`):
the viewport transform state, the cairo-matrix construction of
`get_model_coordinates_cairo_context`, the anchored rotozoom operations,
the dirty-region callback `canvas_modified_cb`, the mipmap selection and
tile enumeration of `repaint`, and the motion-event coalescer of
`motion_notify_cb`.

Python floats are modelled as rationals (`ℚ`); machine timestamps and
coordinates are exact in the source's arithmetic except for float error,
which the spec treats as tolerance.  Device identities and drag callbacks
are modelled by natural-number identifiers (Python compares them by
identity/equality only).  The stored `self.rotation` angle enters the
code only through `cr.rotate(rotation)`, i.e. through `(cos θ, sin θ)`;
the embedding stores that pair (`rot_c`, `rot_s`) directly, so `rotation
== 0.0` is rendered as the pair `(1, 0)`.
-/

namespace TiledDraw

/-- The tuple `data = (x, y, pressure, xtilt, ytilt)` built by
`motion_notify_cb` and handed to `doc.stroke_to`. -/
structure MotionData where
  x : ℚ
  y : ℚ
  pressure : ℚ
  xtilt : ℚ
  ytilt : ℚ
deriving Repr, DecidableEq

/-- The fields of a GDK motion/button event read by `motion_notify_cb`:
position, timestamp (ms), source device, the optional pressure and tilt
axes, and the modifier/button bits of `event.state`. -/
structure GdkEvent where
  x : ℚ
  y : ℚ
  time : ℚ
  device : Nat
  pressure : Option ℚ
  xtilt : Option ℚ
  ytilt : Option ℚ
  ctrl_mask : Bool
  mod1_mask : Bool
  shift_mask : Bool
  button1_mask : Bool
deriving Repr, DecidableEq

/-- The diagnostics printed by `motion_notify_cb`: the bad-pressure
warning (line 155) and the `Time is running backwards` message
(line 223). -/
inductive MotionWarning where
  | badPressure (device : Nat) (pressure : ℚ)
  | timeBackwards (dtime : ℚ)
deriving Repr, DecidableEq

/-- The mutable `TiledDrawWidget` attributes read or written by the
methods modelled here (`__init__`, lines 56-95). -/
structure TDWState where
  is_sensitive : Bool
  translation_x : ℚ
  translation_y : ℚ
  scale : ℚ
  /-- cosine of the stored `self.rotation` angle -/
  rot_c : ℚ
  /-- sine of the stored `self.rotation` angle -/
  rot_s : ℚ
  mirrored : Bool
  zoom_max : ℚ
  zoom_min : ℚ
  dragfunc : Option Nat
  motions : List MotionData
  bad_devices : List Nat
  pressure_mapping : Option (ℚ → ℚ)
  last_event_x : Option ℚ
  last_event_y : Option ℚ
  last_event_time : Option ℚ
  last_event_device : Option Nat
  last_event_had_pressure_info : Bool
  last_painting_pos : Option (ℚ × ℚ)

/-- Python 2 `round`: round half away from zero (`round(0.5) = 1`,
`round(-0.5) = -1`). -/
def pyRound (q : ℚ) : ℤ :=
  if 0 ≤ q then round q else -round (-q)

/-- Python `int()` on a float: truncation toward zero. -/
def pyInt (q : ℚ) : ℤ :=
  if 0 ≤ q then ⌊q⌋ else -⌊-q⌋

/-- Modelled from the spec: `helpers.clamp` (`lib/helpers.py` is not part
of the excerpt); clamps `x` into the interval `[lo, hi]`
("clamping scale to [min,max]"). -/
def clamp (x lo hi : ℚ) : ℚ :=
  min (max x lo) hi

/-! ## Cairo matrices

`get_model_coordinates_cairo_context` manipulates the cairo current
transformation matrix.  A cairo matrix `(xx, yx, xy, yy, x0, y0)` maps
user point `(x, y)` to device point
`(xx*x + xy*y + x0, yx*x + yy*y + y0)`; `cr.translate` / `cr.rotate` /
`cr.scale` compose with the new transform on the right. -/

/-- A cairo affine matrix, in cairo's component order. -/
structure CairoMatrix where
  xx : ℚ
  yx : ℚ
  xy : ℚ
  yy : ℚ
  x0 : ℚ
  y0 : ℚ
deriving Repr, DecidableEq

namespace CairoMatrix

/-- The identity matrix of a fresh cairo context. -/
def identity : CairoMatrix := ⟨1, 0, 0, 1, 0, 0⟩

/-- `cr.user_to_device(x, y)`. -/
def userToDevice (m : CairoMatrix) (x y : ℚ) : ℚ × ℚ :=
  (m.xx * x + m.xy * y + m.x0, m.yx * x + m.yy * y + m.y0)

/-- Determinant of the linear part. -/
def det (m : CairoMatrix) : ℚ :=
  m.xx * m.yy - m.xy * m.yx

/-- `cr.device_to_user(x, y)`: inverse of `userToDevice` (defined by the
2×2 inverse formula; meaningful when `det m ≠ 0`). -/
def deviceToUser (m : CairoMatrix) (x y : ℚ) : ℚ × ℚ :=
  ((m.yy * (x - m.x0) - m.xy * (y - m.y0)) / m.det,
   (m.xx * (y - m.y0) - m.yx * (x - m.x0)) / m.det)

/-- `cr.translate(tx, ty)`. -/
def translate (m : CairoMatrix) (tx ty : ℚ) : CairoMatrix :=
  { m with x0 := m.xx * tx + m.xy * ty + m.x0,
           y0 := m.yx * tx + m.yy * ty + m.y0 }

/-- `cr.rotate(θ)` for the angle with cosine `c` and sine `s`. -/
def rotate (m : CairoMatrix) (c s : ℚ) : CairoMatrix :=
  { m with xx := m.xx * c + m.xy * s,
           yx := m.yx * c + m.yy * s,
           xy := -m.xx * s + m.xy * c,
           yy := -m.yx * s + m.yy * c }

/-- `cr.scale(sx, sy)`. -/
def scaleBy (m : CairoMatrix) (sx sy : ℚ) : CairoMatrix :=
  { m with xx := m.xx * sx, yx := m.yx * sx,
           xy := m.xy * sy, yy := m.yy * sy }

end CairoMatrix

/-! ## Near-power-of-two scale snapping

Lines 300-305: `scale_log2 = log(scale, 2)`; if
`abs(scale_log2 - round(scale_log2)) < 0.01` then
`scale = 2.0**round(scale_log2)`.  Over the positive rationals,
`|log₂ s - n| < 1/100` holds for an integer `n` exactly when
`2^(100n-1) < s^100 < 2^(100n+1)`, and such an `n` is unique; moreover
`n` must be `⌊log₂ s⌋` or `⌊log₂ s⌋ + 1`, which lets the check be
evaluated with exact rational arithmetic via `Int.log`. -/

/-- `s` is within `0.01` of the power `2^n` in log₂ space:
`2^(100n-1) < s^100 < 2^(100n+1)`. -/
def inSnapBand (s : ℚ) (n : ℤ) : Prop :=
  (2 : ℚ) ^ (100 * n - 1) < s ^ 100 ∧ s ^ 100 < (2 : ℚ) ^ (100 * n + 1)

instance (s : ℚ) (n : ℤ) : Decidable (inSnapBand s n) := by
  unfold inSnapBand; infer_instance

/-- The `check if scale is almost a power of two` snapping of
`get_model_coordinates_cairo_context` (lines 300-305): the snapped value
is `2^round(log₂ s)` when `s` lies in the snap band of that exponent,
and `s` itself otherwise. -/
def snapScale (s : ℚ) : ℚ :=
  if s ≤ 0 then s
  else
    let m := Int.log 2 s
    if inSnapBand s m then (2 : ℚ) ^ m
    else if inSnapBand s (m + 1) then (2 : ℚ) ^ (m + 1)
    else s

/-- `get_model_coordinates_cairo_context` (lines 295-324): builds the
model→device cairo matrix from the viewport state — translate, rotate,
scale (with near-power-of-two snapping), pixel alignment of the
translation, and the mirror column flip — and leaves every `self`
attribute untouched.  Returned as (state, matrix) to record that the
method writes no state. -/
def getModelCoordinatesCairoContext (st : TDWState) : TDWState × CairoMatrix :=
  let scale := snapScale st.scale
  let cr := CairoMatrix.identity
  let cr := cr.translate st.translation_x st.translation_y
  let cr := cr.rotate st.rot_c st.rot_s
  let cr := cr.scaleBy scale scale
  -- align the translation such that (0,0) maps to an integer screen pixel
  let xy := cr.userToDevice 0 0
  let uv := cr.deviceToUser (pyRound xy.1) (pyRound xy.2)
  let cr := cr.translate uv.1 uv.2
  let cr := if st.mirrored then { cr with xx := -cr.xx, xy := -cr.xy } else cr
  (st, cr)

/-- The matrix produced by `get_model_coordinates_cairo_context`. -/
def buildTransform (st : TDWState) : CairoMatrix :=
  (getModelCoordinatesCairoContext st).2

/-- `is_translation_only` (lines 326-327): rotation is exactly zero
(the stored cos/sin pair is `(1, 0)`), scale is exactly 1, and mirror is
off. -/
def isTranslationOnly (st : TDWState) : Prop :=
  st.rot_c = 1 ∧ st.rot_s = 0 ∧ st.scale = 1 ∧ st.mirrored = false

instance (st : TDWState) : Decidable (isTranslationOnly st) := by
  unfold isTranslationOnly; infer_instance

/-! ## Rotozoom operations -/

/-- `rotozoom_with_center` (lines 488-503), with the anchor device point
`(cx, cy)` (pointer position or window centre) as a parameter: record
the model point under the anchor, run the mutator, clamp the scale to
`[zoom_min, zoom_max]`, and shift the translation so the recorded model
point returns to the anchor.  `mutateClamped` is the middle part
(lines 496-497): run the mutator, then
`self.scale = helpers.clamp(self.scale, self.zoom_min, self.zoom_max)`. -/
def mutateClamped (st : TDWState) (mutator : TDWState → TDWState) : TDWState :=
  let st1 := mutator st
  { st1 with scale := clamp st1.scale st1.zoom_min st1.zoom_max }

def rotozoomWithCenter (st : TDWState) (mutator : TDWState → TDWState)
    (cx cy : ℚ) : TDWState :=
  let cr := buildTransform st
  let cd := cr.deviceToUser cx cy
  let st2 := mutateClamped st mutator
  let cr2 := buildTransform st2
  let cn := cr2.userToDevice cd.1 cd.2
  { st2 with translation_x := st2.translation_x + cx - cn.1,
             translation_y := st2.translation_y + cy - cn.2 }

/-- `zoom(zoom_step)` (lines 505-507): `scale *= zoom_step`, anchored. -/
def zoom (st : TDWState) (zoom_step : ℚ) (cx cy : ℚ) : TDWState :=
  rotozoomWithCenter st (fun s => { s with scale := s.scale * zoom_step }) cx cy

/-- `set_zoom(zoom)` (lines 509-511). -/
def setZoom (st : TDWState) (z : ℚ) (cx cy : ℚ) : TDWState :=
  rotozoomWithCenter st (fun s => { s with scale := z }) cx cy

/-- `rotate(angle_step)` (lines 513-515): `rotation += angle_step`;
adding angles multiplies the stored (cos, sin) pairs, so the step enters
as its pair `(c, s)`. -/
def rotateStep (st : TDWState) (c s : ℚ) (cx cy : ℚ) : TDWState :=
  rotozoomWithCenter st
    (fun t => { t with rot_c := t.rot_c * c - t.rot_s * s,
                       rot_s := t.rot_s * c + t.rot_c * s }) cx cy

/-- `set_rotation(angle)` (lines 517-519), with the angle given by its
(cos, sin) pair. -/
def setRotation (st : TDWState) (c s : ℚ) (cx cy : ℚ) : TDWState :=
  rotozoomWithCenter st (fun t => { t with rot_c := c, rot_s := s }) cx cy

/-- `mirror()` (lines 521-523). -/
def mirror (st : TDWState) (cx cy : ℚ) : TDWState :=
  rotozoomWithCenter st (fun t => { t with mirrored := !t.mirrored }) cx cy

/-- `set_mirrored(mirrored)` (lines 525-527). -/
def setMirrored (st : TDWState) (m : Bool) (cx cy : ℚ) : TDWState :=
  rotozoomWithCenter st (fun t => { t with mirrored := m }) cx cy

/-- `start_drag(dragfunc)` (lines 529-530). -/
def startDrag (st : TDWState) (f : Nat) : TDWState :=
  { st with dragfunc := some f }

/-- `stop_drag(dragfunc)` (lines 531-533): clear the callback only when
it is the currently installed one. -/
def stopDrag (st : TDWState) (f : Nat) : TDWState :=
  if st.dragfunc = some f then { st with dragfunc := none } else st

/-! ## Mipmap selection -/

/-- The mipmap choice of `repaint` (lines 368-372):
`max(0, ceil(log2(1/scale)))` capped at the maximum level.  For a
positive rational `r`, `⌈log₂ r⌉ = Int.clog 2 r`.  Modelled from the
spec: `tiledsurface.MAX_MIPMAP_LEVEL` (`lib/tiledsurface.py` is not part
of the excerpt) is the maximum supported level, kept here as the
parameter `maxLevel`. -/
def selectMipmapLevel (maxLevel : ℕ) (scale : ℚ) : ℤ :=
  min (max 0 (Int.clog 2 (1 / scale))) maxLevel

/-! ## Motion-event handling (`motion_notify_cb`)

The callback is modelled as a pure step: it receives the current widget
state and one GDK event and returns the new state together with the
`doc.stroke_to` calls, `dragfunc` calls and diagnostics it performs.
The slices below mirror the numbered source regions. -/

/-- Lines 153-160: the bad-pressure check.  Given the current
`bad_devices` list, the event's device and a present pressure value,
returns the surviving pressure (`none` when the value is treated as
infinity and discarded), the new `bad_devices` list, and the warning
printed (if any). -/
def checkPressure (bad_devices : List Nat) (device : Nat) (p : ℚ) :
    Option ℚ × List Nat × List MotionWarning :=
  if p > 1 ∨ p < 0 then
    let bd := if device ∈ bad_devices then bad_devices
              else bad_devices ++ [device]
    let ws : List MotionWarning :=
      if device ∈ bad_devices then [] else [.badPressure device p]
    if p > 1000 ∨ p < -1000 then (none, bd, ws) else (some p, bd, ws)
  else (some p, bad_devices, [])

/-- Lines 173-182: the tilt check — replace missing or far-out-of-range
tilt axes by zero on both axes. -/
def checkTilt (xtilt ytilt : Option ℚ) : ℚ × ℚ :=
  match xtilt, ytilt with
  | some xt, some yt =>
      if xt > 1000 ∨ xt < -1000 ∨ yt > 1000 ∨ yt < -1000 then (0, 0)
      else (xt, yt)
  | _, _ => (0, 0)

/-- The replay loop of lines 237-239: `for data_old in self.motions:
self.doc.stroke_to(step, *data_old); dtime -= step`.  Returns the
emitted stroke samples and the remaining `dtime`. -/
def replayMotions (step : ℚ) : ℚ → List MotionData → List (ℚ × MotionData) × ℚ
  | dtime, [] => ([], dtime)
  | dtime, d :: ds =>
      let rest := replayMotions step (dtime - step) ds
      ((step, d) :: rest.1, rest.2)

/-- Lines 222-241: the input coalescer.  Clamp a negative `dtime` to
zero (printing a diagnostic); buffer the sample when `dtime == 0`;
otherwise replay any buffered zero-time samples, spreading
`min(dtime, 0.1)` evenly over them, and emit the new sample with the
remaining `dtime`.  Returns (strokes, new buffer, warnings). -/
def emitMotion (motions : List MotionData) (dtime : ℚ) (data : MotionData) :
    List (ℚ × MotionData) × List MotionData × List MotionWarning :=
  let ws : List MotionWarning :=
    if dtime < 0 then [.timeBackwards dtime] else []
  let dtime := if dtime < 0 then 0 else dtime
  if dtime = 0 then ([], motions ++ [data], ws)
  else if dtime > 0 then
    if motions ≠ [] then
      -- replay previous events that had identical timestamp
      let step0 := if dtime > 1/10 then (1/10 : ℚ) else dtime
      let step := step0 / (motions.length + 1)
      let rep := replayMotions step dtime motions
      (rep.1 ++ [(rep.2, data)], [], ws)
    else ([(dtime, data)], motions, ws)
  else ([], motions, ws)

/-- The result of one `motion_notify_cb` call: the new state, the
`doc.stroke_to(dtime, x, y, pressure, xtilt, ytilt)` calls, the
`dragfunc(dx, dy)` calls, and the printed diagnostics, each in call
order. -/
structure MotionResult where
  state : TDWState
  strokes : List (ℚ × MotionData)
  dragCalls : List (ℚ × ℚ)
  warnings : List MotionWarning

/-- `device_used` (lines 119-125), without the observer calls. -/
def deviceUsed (st : TDWState) (device : Nat) : TDWState :=
  if st.last_event_device = some device then st
  else { st with last_event_device := some device }

/-- `motion_notify_cb` (lines 127-241).  `button1_pressed` is the
keyword argument (`some b` when called from the button handlers,
`none` from a genuine motion event). -/
def motionNotifyCb (st : TDWState) (event : GdkEvent)
    (button1_pressed : Option Bool) : MotionResult :=
  if st.is_sensitive = false then ⟨st, [], [], []⟩
  else
    -- dtime/dx/dy from the previous event (lines 131-136).  Python's
    -- `if self.last_event_time:` is a truthiness test: an unset
    -- timestamp (None) and a stored timestamp of 0 are both falsy, and
    -- then no dtime is computed and the callback returns early.
    -- last_event_x/y are always set alongside last_event_time.
    let dtime? :=
      match st.last_event_time with
      | some t0 => if t0 ≠ 0 then some ((event.time - t0) / 1000) else none
      | none => none
    let dx := event.x - st.last_event_x.getD 0
    let dy := event.y - st.last_event_y.getD 0
    let st := deviceUsed st event.device
    let st := { st with last_event_x := some event.x,
                        last_event_y := some event.y,
                        last_event_time := some event.time }
    match dtime? with
    | none => ⟨st, [], [], []⟩
    | some dtime =>
      match st.dragfunc with
      | some _ => ⟨st, [], [(dx, dy)], []⟩
      | none =>
        let cr := buildTransform st
        let xy := cr.deviceToUser event.x event.y
        -- pressure validation (lines 151-171)
        let checked :=
          match event.pressure with
          | some p => checkPressure st.bad_devices event.device p
          | none => (none, st.bad_devices, [])
        let st := { st with bad_devices := checked.2.1 }
        let warnings := checked.2.2
        let pst : ℚ × TDWState :=
          match checked.1 with
          | none =>
              let st := { st with last_event_had_pressure_info := false }
              let b1 := button1_pressed.getD event.button1_mask
              (if b1 then (1/2 : ℚ) else 0, st)
          | some p => (p, { st with last_event_had_pressure_info := true })
        let pressure := pst.1
        let st := pst.2
        let tilt := checkTilt event.xtilt event.ytilt
        -- color picking, do not paint (lines 184-187)
        let pressure :=
          if event.ctrl_mask ∨ event.mod1_mask then 0 else pressure
        let pressure :=
          match st.pressure_mapping with
          | some f => f pressure
          | none => pressure
        let pressure := if event.shift_mask then 0 else pressure
        let st :=
          if pressure ≠ 0 then { st with last_painting_pos := some xy } else st
        let data : MotionData := ⟨xy.1, xy.2, pressure, tilt.1, tilt.2⟩
        let em := emitMotion st.motions dtime data
        ⟨{ st with motions := em.2.1 }, em.1, [], warnings ++ em.2.2⟩

/-- Feed a list of events through `motion_notify_cb`, concatenating the
emitted strokes and warnings. -/
def runEvents (st : TDWState) :
    List (GdkEvent × Option Bool) → TDWState × List (ℚ × MotionData) × List MotionWarning
  | [] => (st, [], [])
  | (e, b1) :: rest =>
      let r := motionNotifyCb st e b1
      let acc := runEvents r.state rest
      (acc.1, r.strokes ++ acc.2.1, r.warnings ++ acc.2.2)

/-- Modelled from the spec: the brush engine (`brush.hpp`, not part of
the excerpt) clamps an in-band out-of-range pressure into `[0, 1]`
("if present but outside [0,1], clamp only when within a tolerance
band"; the source comment at line 158 defers that clamping to
`brush.hpp`). -/
def brushEngineClamp (p : ℚ) : ℚ :=
  min (max p 0) 1

/-! ## Dirty-region tracking (`canvas_modified_cb`) and repaint -/

/-- An integer device-space rectangle `(x, y, w, h)` as used by
`gdk.Rectangle` / `queue_draw_area`. -/
structure Rect where
  x : ℤ
  y : ℤ
  w : ℤ
  h : ℤ
deriving Repr, DecidableEq

/-- `gdk.Region.point_in` for a rectangular region. -/
def Rect.pointIn (r : Rect) (px py : ℤ) : Prop :=
  r.x ≤ px ∧ px < r.x + r.w ∧ r.y ≤ py ∧ py < r.y + r.h

instance (r : Rect) (px py : ℤ) : Decidable (r.pointIn px py) := by
  unfold Rect.pointIn; infer_instance

/-- `gdk.Region.rect_in r' ≠ OVERLAP_RECTANGLE_OUT` for a rectangular
region `r`: the two rectangles intersect. -/
def Rect.overlaps (r r' : Rect) : Prop :=
  r.x < r'.x + r'.w ∧ r'.x < r.x + r.w ∧ r.y < r'.y + r'.h ∧ r'.y < r.y + r.h

instance (r r' : Rect) : Decidable (r.overlaps r') := by
  unfold Rect.overlaps; infer_instance

/-- Modelled from the spec: `helpers.rotated_rectangle_bbox`
(`lib/helpers.py` is not part of the excerpt): the axis-aligned integer
device bounding box of the four transformed corners of a rectangle
("computes the rotated-rectangle device bbox of all four corners"),
rounded outward to whole pixels. -/
def rotatedRectangleBbox (p1 p2 p3 p4 : ℚ × ℚ) : Rect :=
  let x0 := ⌊min (min p1.1 p2.1) (min p3.1 p4.1)⌋
  let y0 := ⌊min (min p1.2 p2.2) (min p3.2 p4.2)⌋
  let x1 := ⌈max (max p1.1 p2.1) (max p3.1 p4.1)⌉
  let y1 := ⌈max (max p1.2 p2.2) (max p3.2 p4.2)⌉
  ⟨x0, y0, x1 - x0 + 1, y1 - y0 + 1⟩

/-- A device-space invalidation request issued by `canvas_modified_cb`:
either `queue_draw()` (whole viewport) or `queue_draw_area(x, y, w, h)`. -/
inductive Invalidation where
  | fullViewport
  | area (r : Rect)
deriving Repr, DecidableEq

/-- `canvas_modified_cb(x1, y1, w, h)` (lines 266-287): nothing without
a window; the `(w, h) = (0, 0)` sentinel forces a full redraw; a
translation-only transform maps the top-left corner directly; otherwise
the rotated-rectangle bbox of the four corners is invalidated.  Returns
the list of invalidation requests issued. -/
def canvasModifiedCb (st : TDWState) (hasWindow : Bool) (x1 y1 w h : ℤ) :
    List Invalidation :=
  if hasWindow = false then []
  else if w = 0 ∧ h = 0 then [.fullViewport]
  else
    let cr := buildTransform st
    if isTranslationOnly st then
      let xy := cr.userToDevice x1 y1
      [.area ⟨pyInt xy.1, pyInt xy.2, w, h⟩]
    else
      let c1 := cr.userToDevice x1 y1
      let c2 := cr.userToDevice (x1 + w - 1) y1
      let c3 := cr.userToDevice x1 (y1 + h - 1)
      let c4 := cr.userToDevice (x1 + w - 1) (y1 + h - 1)
      [.area (rotatedRectangleBbox c1 c2 c3 c4)]

/-- `cr.clip_extents()` for a rectangular device-space clip: the
user-space bounding box `(x1, y1, x2, y2)` of the clip rectangle's
four corners under the inverse transform. -/
def clipExtents (m : CairoMatrix) (r : Rect) : ℚ × ℚ × ℚ × ℚ :=
  let c1 := m.deviceToUser r.x r.y
  let c2 := m.deviceToUser (r.x + r.w) r.y
  let c3 := m.deviceToUser r.x (r.y + r.h)
  let c4 := m.deviceToUser (r.x + r.w) (r.y + r.h)
  (min (min c1.1 c2.1) (min c3.1 c4.1),
   min (min c1.2 c2.2) (min c3.2 c4.2),
   max (max c1.1 c2.1) (max c3.1 c4.1),
   max (max c1.2 c2.2) (max c3.2 c4.2))

/-- Modelled from the spec: `pixbufsurface.Surface.get_tiles`
(`lib/pixbufsurface.py` is not part of the excerpt): the coordinates of
every tile of side `N` whose model-space extent
`[tx*N, (tx+1)*N) × [ty*N, (ty+1)*N)` intersects the surface rectangle
("enumerate candidate tiles ... restricted to the working buffer's
model bbox"). -/
def getTiles (r : Rect) (N : ℕ) : List (ℤ × ℤ) :=
  let tx0 := r.x.fdiv N
  let tx1 := (r.x + r.w - 1).fdiv N
  let ty0 := r.y.fdiv N
  let ty1 := (r.y + r.h - 1).fdiv N
  (List.range (tx1 - tx0 + 1).toNat).flatMap fun i =>
    (List.range (ty1 - ty0 + 1).toNat).map fun j => (tx0 + i, ty0 + j)

/-- The tile-selection skeleton of `repaint` (lines 342-443), recording
the `doc.blit_tile_into(dst, tx, ty, mipmap_level, ...)` requests as a
list of `(tx, ty, mipmap_level)`.  `deviceBbox` is the requested redraw
region (`event.area` or the window), `clip` the window's GDK clip
region (modelled as one rectangle), `maxLevel` the mipmap cap and `N`
the tile side.  Mirrors: the `sparse` test, the transform with mipmap
scaling, the clip extents with the 1-pixel interpolation margin in the
non-translation case, the surface extent rounded outward, the per-tile
visibility cull in sparse mode, and the blit of each surviving tile. -/
def repaintBlits (st : TDWState) (maxLevel N : ℕ)
    (deviceBbox clip : Rect) : List (ℤ × ℤ × ℤ) :=
  let sparse : Bool :=
    ¬ clip.pointIn (deviceBbox.x + deviceBbox.w.fdiv 2)
                   (deviceBbox.y + deviceBbox.h.fdiv 2)
  let cr := buildTransform st
  let level := selectMipmapLevel maxLevel st.scale
  let cr := cr.scaleBy ((2 : ℚ) ^ level) ((2 : ℚ) ^ level)
  let tOnly := isTranslationOnly st
  let ext := clipExtents cr deviceBbox
  let ext := if tOnly then ext
             else (ext.1 - 1, ext.2.1 - 1, ext.2.2.1 + 1, ext.2.2.2 + 1)
  let sx := ⌊ext.1⌋
  let sy := ⌊ext.2.1⌋
  let sx2 := ⌈ext.2.2.1⌉
  let sy2 := ⌈ext.2.2.2⌉
  let surfaceRect : Rect := ⟨sx, sy, sx2 - sx + 1, sy2 - sy + 1⟩
  (getTiles surfaceRect N).filterMap fun t =>
    if sparse then
      let bbox :=
        if tOnly then
          let xy := cr.userToDevice (t.1 * N) (t.2 * N)
          Rect.mk (pyInt xy.1) (pyInt xy.2) N N
        else
          let c1 := cr.userToDevice (t.1 * N - 1) (t.2 * N - 1)
          let c2 := cr.userToDevice ((t.1 + 1) * N) (t.2 * N - 1)
          let c3 := cr.userToDevice (t.1 * N - 1) ((t.2 + 1) * N)
          let c4 := cr.userToDevice ((t.1 + 1) * N) ((t.2 + 1) * N)
          rotatedRectangleBbox c1 c2 c3 c4
      if clip.overlaps bbox then some (t.1, t.2, level) else none
    else some (t.1, t.2, level)

/-! ## Auxiliary definitions for the statements -/

/-- Determinant of the linear part of the transform a state produces:
`(snapScale scale)² · (cos² + sin²)`.  Nonzero exactly when the cairo
matrix of `get_model_coordinates_cairo_context` is invertible. -/
def stateDet (st : TDWState) : ℚ :=
  (snapScale st.scale) ^ 2 * (st.rot_c ^ 2 + st.rot_s ^ 2)

/-- Number of bad-pressure warnings naming device `dev` in a warning
list. -/
def countBadWarnings (dev : Nat) (ws : List MotionWarning) : ℕ :=
  (ws.filter fun w =>
    match w with
    | .badPressure d _ => d == dev
    | _ => false).length

/-- A concrete widget state (the `__init__` defaults of lines 56-95,
with a window size already allocated) used to instantiate the theorems
on explicit inputs. -/
def sampleState : TDWState where
  is_sensitive := true
  translation_x := 0
  translation_y := 0
  scale := 1
  rot_c := 1
  rot_s := 0
  mirrored := false
  zoom_max := 5
  zoom_min := 1/5
  dragfunc := none
  motions := []
  bad_devices := []
  pressure_mapping := none
  last_event_x := none
  last_event_y := none
  last_event_time := none
  last_event_device := none
  last_event_had_pressure_info := false
  last_painting_pos := none

/-! ## Helper lemmas -/

theorem clamp_mem {x lo hi : ℚ} (h : lo ≤ hi) :
    lo ≤ clamp x lo hi ∧ clamp x lo hi ≤ hi :=
  ⟨le_min (le_max_right _ _) h, min_le_right _ _⟩

theorem replayMotions_fst (step dtime : ℚ) (l : List MotionData) :
    (replayMotions step dtime l).1 = l.map fun d => (step, d) := by
  induction l generalizing dtime with
  | nil => rfl
  | cons d ds ih => simp [replayMotions, ih]

theorem replayMotions_snd (step dtime : ℚ) (l : List MotionData) :
    (replayMotions step dtime l).2 = dtime - l.length * step := by
  induction l generalizing dtime with
  | nil => simp [replayMotions]
  | cons d ds ih => simp [replayMotions, ih]; ring

theorem emitMotion_neg (ms : List MotionData) (dtime : ℚ) (data : MotionData)
    (h : dtime < 0) :
    emitMotion ms dtime data = ([], ms ++ [data], [.timeBackwards dtime]) := by
  simp [emitMotion, h]

theorem emitMotion_zero (ms : List MotionData) (data : MotionData) :
    emitMotion ms 0 data = ([], ms ++ [data], []) := by
  simp [emitMotion]

theorem emitMotion_pos (ms : List MotionData) (dtime : ℚ) (data : MotionData)
    (hms : ms ≠ []) (hdt : 0 < dtime) :
    emitMotion ms dtime data =
      (ms.map (fun d => ((if dtime > 1/10 then (1/10 : ℚ) else dtime) / (ms.length + 1), d))
        ++ [(dtime - ms.length *
              ((if dtime > 1/10 then (1/10 : ℚ) else dtime) / (ms.length + 1)), data)],
       [], []) := by
  simp [emitMotion, hms, not_lt.mpr hdt.le, hdt.ne', hdt,
        replayMotions_fst, replayMotions_snd]

theorem emitMotion_strokes_nonneg (ms : List MotionData) (dtime : ℚ)
    (data : MotionData) : ∀ p ∈ (emitMotion ms dtime data).1, 0 ≤ p.1 := by
  intro p hp
  rcases lt_trichotomy dtime 0 with h | h | h
  · rw [emitMotion_neg ms dtime data h] at hp
    simp at hp
  · subst h
    rw [emitMotion_zero] at hp
    simp at hp
  · by_cases hms : ms = []
    · subst hms
      simp [emitMotion, not_lt.mpr h.le, h.ne', h] at hp
      rw [hp]
      exact h.le
    · rw [emitMotion_pos ms dtime data hms h] at hp
      set step0 := if dtime > 1/10 then (1/10 : ℚ) else dtime with hstep0
      have h0 : 0 < step0 := by
        rw [hstep0]; split
        · norm_num
        · exact h
      have h0d : step0 ≤ dtime := by
        rw [hstep0]; split <;> linarith
      have hlen : (0 : ℚ) < ms.length + 1 := by positivity
      have hstep : 0 ≤ step0 / (ms.length + 1) := by positivity
      have hmul : (ms.length : ℚ) * (step0 / (ms.length + 1)) ≤ dtime := by
        have h2 : (ms.length : ℚ) * (step0 / (ms.length + 1)) ≤ step0 := by
          rw [mul_div_assoc']
          rw [div_le_iff₀ hlen]
          have : (ms.length : ℚ) ≤ ms.length + 1 := by linarith
          calc (ms.length : ℚ) * step0 = step0 * ms.length := by ring
            _ ≤ step0 * (ms.length + 1) := by
                exact mul_le_mul_of_nonneg_left this h0.le
        linarith
      simp only [List.mem_append, List.mem_map, List.mem_singleton] at hp
      rcases hp with ⟨d, _, rfl⟩ | rfl
      · exact hstep
      · simpa using by linarith

/-! ## Claim theorems -/

/-- C10: `start_drag(f)` installs `f` as the active drag callback;
`stop_drag(g)` clears the callback exactly when `g` is the currently
installed one, and when `g` differs from the active callback the call
changes no state at all. -/
theorem C10_drag_callback_guard (st : TDWState) (f g : Nat) :
    (startDrag st f).dragfunc = some f ∧
    (st.dragfunc = some g → stopDrag st g = { st with dragfunc := none }) ∧
    (st.dragfunc ≠ some g → stopDrag st g = st) := by
  refine ⟨rfl, ?_, ?_⟩ <;> intro h <;> simp [stopDrag, h]

/-- Witness for C10 at the initial state with callbacks 2 and 1. -/
theorem C10_drag_callback_guard_witness :
    (startDrag sampleState 2).dragfunc = some 2 ∧
    (sampleState.dragfunc = some 1 →
      stopDrag sampleState 1 = { sampleState with dragfunc := none }) ∧
    (sampleState.dragfunc ≠ some 1 → stopDrag sampleState 1 = sampleState) :=
  C10_drag_callback_guard sampleState 2 1

/-- C7: after each of the six rotozoom operations (`zoom`, `set_zoom`,
`rotate`, `set_rotation`, `mirror`, `set_mirrored`) the stored scale
lies within the configured `[zoom_min, zoom_max]` range. -/
theorem C7_scale_clamped (st : TDWState) (h : st.zoom_min ≤ st.zoom_max)
    (zs z c s cx cy : ℚ) (m : Bool) :
    (st.zoom_min ≤ (zoom st zs cx cy).scale ∧
      (zoom st zs cx cy).scale ≤ st.zoom_max) ∧
    (st.zoom_min ≤ (setZoom st z cx cy).scale ∧
      (setZoom st z cx cy).scale ≤ st.zoom_max) ∧
    (st.zoom_min ≤ (rotateStep st c s cx cy).scale ∧
      (rotateStep st c s cx cy).scale ≤ st.zoom_max) ∧
    (st.zoom_min ≤ (setRotation st c s cx cy).scale ∧
      (setRotation st c s cx cy).scale ≤ st.zoom_max) ∧
    (st.zoom_min ≤ (mirror st cx cy).scale ∧
      (mirror st cx cy).scale ≤ st.zoom_max) ∧
    (st.zoom_min ≤ (setMirrored st m cx cy).scale ∧
      (setMirrored st m cx cy).scale ≤ st.zoom_max) :=
  ⟨clamp_mem h, clamp_mem h, clamp_mem h, clamp_mem h, clamp_mem h, clamp_mem h⟩

/-- Witness for C7: the default state (`zoom_min = 1/5 ≤ 5 = zoom_max`)
zoomed by 100. -/
theorem C7_scale_clamped_witness :
    sampleState.zoom_min ≤ sampleState.zoom_max ∧
    (sampleState.zoom_min ≤ (zoom sampleState 100 0 0).scale ∧
      (zoom sampleState 100 0 0).scale ≤ sampleState.zoom_max) :=
  ⟨by norm_num [sampleState],
   (C7_scale_clamped sampleState (by norm_num [sampleState]) 100 1 1 0 0 0 true).1⟩

theorem sum_map_const (l : List MotionData) (c : ℚ) :
    (l.map fun _ => c).sum = l.length * c := by
  induction l with
  | nil => simp
  | cons d ds ih => simp [ih]; ring

/-- C1: when buffered zero-dtime samples exist and a sample with
`dtime > 0` arrives, the coalescer emits one stroke per buffered sample
followed by one for the new sample, in arrival order, clears the
buffer, the emitted elapsed times sum exactly to the new `dtime`, and
each emitted elapsed time is at most `dtime`; a `dtime = 0` sample is
buffered, not emitted; and for the dtime sequence `[0, 0, 10ms]`
exactly three strokes are emitted, each of 10/3 ms. -/
theorem C1_coalescer_replay :
    (∀ (ms : List MotionData) (dtime : ℚ) (data : MotionData),
      ms ≠ [] → 0 < dtime →
      (emitMotion ms dtime data).1.map Prod.snd = ms ++ [data] ∧
      (emitMotion ms dtime data).2.1 = [] ∧
      ((emitMotion ms dtime data).1.map Prod.fst).sum = dtime ∧
      ∀ p ∈ (emitMotion ms dtime data).1, p.1 ≤ dtime) ∧
    (∀ (ms : List MotionData) (data : MotionData),
      emitMotion ms 0 data = ([], ms ++ [data], [])) ∧
    (∀ d1 d2 d3 : MotionData,
      (emitMotion ((emitMotion ((emitMotion [] 0 d1).2.1) 0 d2).2.1)
          (1/100) d3).1 =
        [(1/300, d1), (1/300, d2), (1/300, d3)]) := by
  refine ⟨?_, emitMotion_zero, ?_⟩
  · intro ms dtime data hms hdt
    rw [emitMotion_pos ms dtime data hms hdt]
    set step0 := if dtime > 1/10 then (1/10 : ℚ) else dtime with hstep0
    have h0 : 0 < step0 := by
      rw [hstep0]; split
      · norm_num
      · exact hdt
    have h0d : step0 ≤ dtime := by
      rw [hstep0]; split <;> linarith
    have hlen : (0 : ℚ) < ms.length + 1 := by positivity
    have hstep : 0 < step0 / (ms.length + 1) := by positivity
    have hle : step0 / (ms.length + 1) ≤ dtime :=
      le_trans (div_le_self h0.le (by linarith)) h0d
    refine ⟨by simp, rfl, ?_, ?_⟩
    · simp only [List.map_append, List.map_map, List.sum_append]
      have : (Prod.fst ∘ fun d : MotionData =>
          (step0 / (↑ms.length + 1), d)) = fun _ => step0 / (↑ms.length + 1) := rfl
      rw [this, sum_map_const]
      simp
    · intro p hp
      simp only [List.mem_append, List.mem_map, List.mem_singleton] at hp
      rcases hp with ⟨d, _, rfl⟩ | rfl
      · exact hle
      · have : 0 ≤ (ms.length : ℚ) * (step0 / (ms.length + 1)) := by positivity
        simpa using by linarith
  · intro d1 d2 d3
    rw [emitMotion_zero, emitMotion_zero]
    rw [emitMotion_pos _ _ _ (by simp) (by norm_num)]
    norm_num

/-- Witness for C1 at a concrete buffered run: two buffered samples and
a 10 ms sample. -/
theorem C1_coalescer_replay_witness :
    (let d : MotionData := ⟨0, 0, 1, 0, 0⟩
     let e : MotionData := ⟨1, 1, 1, 0, 0⟩
     (emitMotion [d, e] (1/100) e).1.map Prod.snd = [d, e] ++ [e] ∧
     (emitMotion [d, e] (1/100) e).2.1 = [] ∧
     ((emitMotion [d, e] (1/100) e).1.map Prod.fst).sum = 1/100 ∧
     ∀ p ∈ (emitMotion [d, e] (1/100) e).1, p.1 ≤ 1/100) :=
  C1_coalescer_replay.1 [⟨0, 0, 1, 0, 0⟩, ⟨1, 1, 1, 0, 0⟩] (1/100)
    ⟨1, 1, 1, 0, 0⟩ (by simp) (by norm_num)

/-- C8: a negative `dtime` is clamped to zero with a diagnostic (the
sample is buffered, no stroke is emitted), and no call of the coalescer
or of `motion_notify_cb` ever emits a stroke sample with negative
elapsed time. -/
theorem C8_negative_dtime_clamped :
    (∀ (ms : List MotionData) (dtime : ℚ) (data : MotionData), dtime < 0 →
      emitMotion ms dtime data = ([], ms ++ [data], [.timeBackwards dtime])) ∧
    (∀ (ms : List MotionData) (dtime : ℚ) (data : MotionData),
      ∀ p ∈ (emitMotion ms dtime data).1, 0 ≤ p.1) ∧
    (∀ (st : TDWState) (event : GdkEvent) (b1 : Option Bool),
      ∀ p ∈ (motionNotifyCb st event b1).strokes, 0 ≤ p.1) := by
  refine ⟨emitMotion_neg, emitMotion_strokes_nonneg, ?_⟩
  intro st event b1 p hp
  unfold motionNotifyCb at hp
  split at hp
  · simp at hp
  · dsimp only at hp
    split at hp
    · simp at hp
    · split at hp
      · simp at hp
      · exact emitMotion_strokes_nonneg _ _ _ p hp

/-- Witness for C8 at `dtime = -1`. -/
theorem C8_negative_dtime_clamped_witness :
    emitMotion [] (-1) ⟨0, 0, 1, 0, 0⟩ =
      ([], [] ++ [⟨0, 0, 1, 0, 0⟩], [.timeBackwards (-1)]) :=
  C8_negative_dtime_clamped.1 [] (-1) ⟨0, 0, 1, 0, 0⟩ (by norm_num)

/-- C3: for positive scales the selected mipmap level is
`max(0, ⌈log₂(1/scale)⌉)` clamped to `[0, maxLevel]` — equivalently the
clamp of the least integer `n ≥ 0` with `2^n · scale ≥ 1`; the level is
non-increasing in the scale and always lies in `[0, maxLevel]`;
`scale = 1` gives level 0, `scale = 1/5` gives level 3 (when
`maxLevel ≥ 3`), and `scale = 1/100` gives `maxLevel` when
`maxLevel < 7`. -/
theorem C3_mipmap_level (maxLevel : ℕ) (s s2 : ℚ) (hs : 0 < s) (hs2 : s ≤ s2) :
    (selectMipmapLevel maxLevel s =
      min (max 0 (Int.clog 2 (1 / s))) maxLevel) ∧
    (1 ≤ (2 : ℚ) ^ max 0 (Int.clog 2 (1 / s)) * s) ∧
    (∀ n : ℤ, 0 ≤ n → 1 ≤ (2 : ℚ) ^ n * s →
      max 0 (Int.clog 2 (1 / s)) ≤ n) ∧
    (0 ≤ selectMipmapLevel maxLevel s ∧
      selectMipmapLevel maxLevel s ≤ maxLevel) ∧
    (selectMipmapLevel maxLevel s2 ≤ selectMipmapLevel maxLevel s) ∧
    (selectMipmapLevel maxLevel 1 = 0) ∧
    (3 ≤ maxLevel → selectMipmapLevel maxLevel (1 / 5) = 3) ∧
    (maxLevel < 7 → selectMipmapLevel maxLevel (1 / 100) = maxLevel) := by
  have hs' : (0 : ℚ) < 1 / s := by positivity
  have h2 : (1 : ℕ) < 2 := one_lt_two
  refine ⟨rfl, ?_, ?_, ⟨?_, ?_⟩, ?_, ?_, ?_, ?_⟩
  · have h1 : (1 / s : ℚ) ≤ 2 ^ Int.clog 2 (1 / s) :=
      Int.self_le_zpow_clog h2 (1 / s)
    have h1' : (1 / s : ℚ) ≤ 2 ^ max 0 (Int.clog 2 (1 / s)) :=
      le_trans h1 (by
        apply zpow_le_zpow_right₀ (by norm_num) (le_max_right _ _))
    rw [div_le_iff₀ hs] at h1'
    linarith
  · intro n hn h1
    refine max_le hn ?_
    rw [← Int.le_zpow_iff_clog_le h2 hs']
    rw [div_le_iff₀ hs]
    push_cast
    linarith
  · exact le_min (le_max_left _ _) (Int.ofNat_nonneg maxLevel)
  · exact min_le_right _ _
  · unfold selectMipmapLevel
    have hs2pos : (0 : ℚ) < s2 := lt_of_lt_of_le hs hs2
    have hs2' : (0 : ℚ) < 1 / s2 := by positivity
    have : Int.clog 2 (1 / s2) ≤ Int.clog 2 (1 / s) :=
      Int.clog_mono_right hs2' (by
        apply one_div_le_one_div_of_le hs hs2)
    exact min_le_min (max_le_max le_rfl this) le_rfl
  · unfold selectMipmapLevel
    norm_num
  · intro h3
    unfold selectMipmapLevel
    have h5 : (1 : ℚ) / (1 / 5) = 5 := by norm_num
    have hc : Int.clog 2 ((5 : ℚ)) = 3 := by
      have hup : Int.clog 2 ((5 : ℚ)) ≤ 3 := by
        rw [← Int.le_zpow_iff_clog_le h2 (by norm_num)]
        norm_num
      have hdown : (2 : ℤ) < Int.clog 2 ((5 : ℚ)) := by
        rw [← Int.zpow_lt_iff_lt_clog h2 (by norm_num)]
        norm_num
      omega
    rw [h5, hc]
    have : ((3 : ℤ)) ≤ (maxLevel : ℤ) := by exact_mod_cast h3
    omega
  · intro h7
    unfold selectMipmapLevel
    have h100 : (1 : ℚ) / (1 / 100) = 100 := by norm_num
    have hc : Int.clog 2 ((100 : ℚ)) = 7 := by
      have hup : Int.clog 2 ((100 : ℚ)) ≤ 7 := by
        rw [← Int.le_zpow_iff_clog_le h2 (by norm_num)]
        norm_num
      have hdown : (6 : ℤ) < Int.clog 2 ((100 : ℚ)) := by
        rw [← Int.zpow_lt_iff_lt_clog h2 (by norm_num)]
        norm_num
      omega
    rw [h100, hc]
    have : (maxLevel : ℤ) < 7 := by exact_mod_cast h7
    omega

/-- Witness for C3 at `maxLevel = 4` and scales `1/5 ≤ 1`. -/
theorem C3_mipmap_level_witness :
    (0 : ℚ) < 1 / 5 ∧ (1 / 5 : ℚ) ≤ 1 ∧
    (selectMipmapLevel 4 (1 / 5) =
      min (max 0 (Int.clog 2 ((1 : ℚ) / (1 / 5)))) 4 ∧
    (1 ≤ (2 : ℚ) ^ max 0 (Int.clog 2 ((1 : ℚ) / (1 / 5))) * (1 / 5)) ∧
    (∀ n : ℤ, 0 ≤ n → 1 ≤ (2 : ℚ) ^ n * (1 / 5) →
      max 0 (Int.clog 2 ((1 : ℚ) / (1 / 5))) ≤ n) ∧
    (0 ≤ selectMipmapLevel 4 (1 / 5) ∧ selectMipmapLevel 4 (1 / 5) ≤ 4) ∧
    (selectMipmapLevel 4 1 ≤ selectMipmapLevel 4 (1 / 5)) ∧
    (selectMipmapLevel 4 1 = 0) ∧
    (3 ≤ 4 → selectMipmapLevel 4 (1 / 5) = 3) ∧
    (4 < 7 → selectMipmapLevel 4 (1 / 100) = 4)) :=
  ⟨by norm_num, by norm_num,
   C3_mipmap_level 4 (1 / 5) 1 (by norm_num) (by norm_num)⟩

/-- Closed form of the matrix built by
`get_model_coordinates_cairo_context` when the linear part is
invertible: scaled rotation (with the mirror flip of the `x` row) and
the translation rounded to integer device pixels. -/
theorem buildTransform_eq (st : TDWState) (hdet : stateDet st ≠ 0) :
    buildTransform st =
      ⟨(if st.mirrored then (-1 : ℚ) else 1) * (snapScale st.scale * st.rot_c),
       snapScale st.scale * st.rot_s,
       -((if st.mirrored then (-1 : ℚ) else 1) * (snapScale st.scale * st.rot_s)),
       snapScale st.scale * st.rot_c,
       (pyRound st.translation_x : ℚ),
       (pyRound st.translation_y : ℚ)⟩ := by
  have hD1 : st.rot_c ^ 2 * snapScale st.scale ^ 2 +
      snapScale st.scale ^ 2 * st.rot_s ^ 2 ≠ 0 := by
    intro h
    apply hdet
    unfold stateDet
    linear_combination h
  have hD2 : st.rot_s ^ 2 * snapScale st.scale ^ 2 +
      snapScale st.scale ^ 2 * st.rot_c ^ 2 ≠ 0 := by
    intro h
    apply hdet
    unfold stateDet
    linear_combination h
  unfold buildTransform getModelCoordinatesCairoContext
  simp only [CairoMatrix.identity, CairoMatrix.translate, CairoMatrix.rotate,
    CairoMatrix.scaleBy, CairoMatrix.userToDevice, CairoMatrix.deviceToUser,
    CairoMatrix.det]
  norm_num
  by_cases hm : st.mirrored <;>
    simp only [hm, if_true, if_false, Bool.false_eq_true, CairoMatrix.mk.injEq] <;>
    refine ⟨by ring, by ring, by ring, by ring, ?_, ?_⟩
  · linear_combination
      ((pyRound st.translation_x : ℚ) - st.translation_x) * mul_inv_cancel₀ hD1
  · linear_combination
      ((pyRound st.translation_y : ℚ) - st.translation_y) * mul_inv_cancel₀ hD2
  · linear_combination
      ((pyRound st.translation_x : ℚ) - st.translation_x) * mul_inv_cancel₀ hD1
  · linear_combination
      ((pyRound st.translation_y : ℚ) - st.translation_y) * mul_inv_cancel₀ hD2

theorem abs_pyRound_sub (q : ℚ) : |(pyRound q : ℚ) - q| ≤ 1 / 2 := by
  unfold pyRound
  split
  · rw [abs_sub_comm]
    exact abs_sub_round q
  · push_cast
    rw [show -(round (-q) : ℚ) - q = (-q) - (round (-q) : ℚ) by ring]
    exact abs_sub_round (-q)

/-- The two-rounding anchor bound: re-rounding a translation that was
corrected by an already-rounded amount moves the anchor by at most one
device pixel. -/
theorem anchor_bound (A B cx : ℚ) :
    |A + (pyRound (B + cx - (A + (pyRound B : ℚ))) : ℚ) - cx| ≤ 1 := by
  have h1 := abs_pyRound_sub (B + cx - (A + (pyRound B : ℚ)))
  have h2 := abs_pyRound_sub B
  have key : A + (pyRound (B + cx - (A + (pyRound B : ℚ))) : ℚ) - cx =
      ((pyRound (B + cx - (A + (pyRound B : ℚ))) : ℚ) -
        (B + cx - (A + (pyRound B : ℚ)))) - ((pyRound B : ℚ) - B) := by
    ring
  rw [key]
  calc |((pyRound (B + cx - (A + (pyRound B : ℚ))) : ℚ) -
        (B + cx - (A + (pyRound B : ℚ)))) - ((pyRound B : ℚ) - B)|
      ≤ |(pyRound (B + cx - (A + (pyRound B : ℚ))) : ℚ) -
          (B + cx - (A + (pyRound B : ℚ)))| + |(pyRound B : ℚ) - B| :=
        abs_sub _ _
    _ ≤ 1 / 2 + 1 / 2 := add_le_add h1 h2
    _ = 1 := by norm_num

/-- C4: for every anchor device point and every mutator, the anchored
rotozoom (used by zoom, set_zoom, rotate, set_rotation, mirror and
set_mirrored) maps the model point that was under the anchor before the
mutation back to the same device point after the mutation and
translation adjustment, up to the rounding tolerance of the
pixel-aligned translation (at most one device pixel per axis). -/
theorem C4_rotozoom_anchor (st : TDWState) (mutator : TDWState → TDWState)
    (cx cy : ℚ) (hdet : stateDet (mutateClamped st mutator) ≠ 0) :
    |((buildTransform (rotozoomWithCenter st mutator cx cy)).userToDevice
        ((buildTransform st).deviceToUser cx cy).1
        ((buildTransform st).deviceToUser cx cy).2).1 - cx| ≤ 1 ∧
    |((buildTransform (rotozoomWithCenter st mutator cx cy)).userToDevice
        ((buildTransform st).deviceToUser cx cy).1
        ((buildTransform st).deviceToUser cx cy).2).2 - cy| ≤ 1 := by
  set p := (buildTransform st).deviceToUser cx cy with hp
  set M2 := mutateClamped st mutator with hM2
  have hroz : rotozoomWithCenter st mutator cx cy =
      { M2 with
        translation_x := M2.translation_x + cx -
          ((buildTransform M2).userToDevice p.1 p.2).1,
        translation_y := M2.translation_y + cy -
          ((buildTransform M2).userToDevice p.1 p.2).2 } := rfl
  have h2 := buildTransform_eq M2 hdet
  have hdet3 : stateDet
      ({ M2 with
        translation_x := M2.translation_x + cx -
          ((buildTransform M2).userToDevice p.1 p.2).1,
        translation_y := M2.translation_y + cy -
          ((buildTransform M2).userToDevice p.1 p.2).2 }) ≠ 0 := by
    simpa [stateDet] using hdet
  have h3 := buildTransform_eq _ hdet3
  dsimp only at h3
  rw [hroz, h3]
  simp only [CairoMatrix.userToDevice]
  rw [h2]
  dsimp only
  constructor
  · exact anchor_bound
      ((if M2.mirrored then (-1 : ℚ) else 1) * (snapScale M2.scale * M2.rot_c) * p.1 +
        -((if M2.mirrored then (-1 : ℚ) else 1) * (snapScale M2.scale * M2.rot_s)) * p.2)
      M2.translation_x cx
  · exact anchor_bound
      (snapScale M2.scale * M2.rot_s * p.1 + snapScale M2.scale * M2.rot_c * p.2)
      M2.translation_y cy

theorem inSnapBand_disjoint {s : ℚ} {n n' : ℤ} (hlt : n < n')
    (h : inSnapBand s n) (h' : inSnapBand s n') : False := by
  obtain ⟨_, h2⟩ := h
  obtain ⟨h3, _⟩ := h'
  have : (2 : ℚ) ^ (100 * n' - 1) < (2 : ℚ) ^ (100 * n + 1) := lt_trans h3 h2
  rw [zpow_lt_zpow_iff_right₀ (by norm_num : (1 : ℚ) < 2)] at this
  omega

set_option maxRecDepth 4000 in
/-- The snap band of exponent `n` forces `n` to be `round (log₂ s)`, and
then `snapScale` returns exactly `2^n`. -/
theorem snapScale_of_inSnapBand {s : ℚ} {n : ℤ} (hs : 0 < s)
    (hband : inSnapBand s n) : snapScale s = 2 ^ n := by
  set m := Int.log 2 s with hm
  have hlog_le : ((2 : ℕ) : ℚ) ^ m ≤ s := Int.zpow_log_le_self (by norm_num) hs
  have hlog_lt : s < ((2 : ℕ) : ℚ) ^ (m + 1) :=
    Int.lt_zpow_succ_log_self (by norm_num) s
  have hcast : ((2 : ℕ) : ℚ) = 2 := by norm_num
  rw [hcast] at hlog_le hlog_lt
  have hpow_le : (2 : ℚ) ^ (100 * m) ≤ s ^ 100 := by
    have h := pow_le_pow_left₀ (zpow_pos (by norm_num : (0 : ℚ) < 2) m).le
      hlog_le 100
    rw [← zpow_natCast ((2 : ℚ) ^ m) 100, ← zpow_mul] at h
    have he : m * ((100 : ℕ) : ℤ) = 100 * m := by push_cast; ring
    rwa [he] at h
  have hpow_lt : s ^ 100 < (2 : ℚ) ^ (100 * (m + 1)) := by
    have h := pow_lt_pow_left₀ hlog_lt hs.le (by norm_num : (100 : ℕ) ≠ 0)
    rw [← zpow_natCast ((2 : ℚ) ^ (m + 1)) 100, ← zpow_mul] at h
    have he : (m + 1) * ((100 : ℕ) : ℤ) = 100 * (m + 1) := by push_cast; ring
    rwa [he] at h
  have hn_ge : m ≤ n := by
    have : (2 : ℚ) ^ (100 * m) < (2 : ℚ) ^ (100 * n + 1) :=
      lt_of_le_of_lt hpow_le hband.2
    rw [zpow_lt_zpow_iff_right₀ (by norm_num : (1 : ℚ) < 2)] at this
    omega
  have hn_le : n ≤ m + 1 := by
    have : (2 : ℚ) ^ (100 * n - 1) < (2 : ℚ) ^ (100 * (m + 1)) :=
      lt_trans hband.1 hpow_lt
    rw [zpow_lt_zpow_iff_right₀ (by norm_num : (1 : ℚ) < 2)] at this
    omega
  unfold snapScale
  rw [if_neg (not_le.mpr hs)]
  rw [← hm]
  rcases eq_or_lt_of_le hn_ge with heq | hgt
  · rw [← heq] at hband ⊢
    rw [if_pos hband]
  · have hn : n = m + 1 := by omega
    subst hn
    have hnot : ¬ inSnapBand s m := fun h =>
      inSnapBand_disjoint (by omega : m < m + 1) h hband
    rw [if_neg hnot, if_pos hband]

theorem snapScale_pos {s : ℚ} (hs : 0 < s) : 0 < snapScale s := by
  unfold snapScale
  rw [if_neg (not_le.mpr hs)]
  dsimp only
  split
  · positivity
  · split
    · positivity
    · exact hs

theorem inSnapBand_one : inSnapBand 1 0 := by
  unfold inSnapBand
  norm_num

theorem snapScale_one : snapScale 1 = 1 := by
  have h := snapScale_of_inSnapBand (by norm_num : (0 : ℚ) < 1) inSnapBand_one
  simpa using h

theorem inSnapBand_two : inSnapBand 2 1 := by
  unfold inSnapBand
  constructor <;>
  · rw [show ((2 : ℚ) ^ (100 : ℕ)) = (2 : ℚ) ^ ((100 : ℕ) : ℤ) from
      (zpow_natCast 2 100).symm]
    rw [zpow_lt_zpow_iff_right₀ (by norm_num : (1 : ℚ) < 2)]
    norm_num

theorem snapScale_two : snapScale 2 = 2 := by
  have h := snapScale_of_inSnapBand (by norm_num : (0 : ℚ) < 2) inSnapBand_two
  simpa using h

/-- Witness for C4: the default state zoomed by factor 2 about the
anchor `(3, 4)`. -/
theorem C4_rotozoom_anchor_witness :
    stateDet (mutateClamped sampleState
      (fun s => { s with scale := s.scale * 2 })) ≠ 0 ∧
    (|((buildTransform (rotozoomWithCenter sampleState
          (fun s => { s with scale := s.scale * 2 }) 3 4)).userToDevice
        ((buildTransform sampleState).deviceToUser 3 4).1
        ((buildTransform sampleState).deviceToUser 3 4).2).1 - 3| ≤ 1 ∧
     |((buildTransform (rotozoomWithCenter sampleState
          (fun s => { s with scale := s.scale * 2 }) 3 4)).userToDevice
        ((buildTransform sampleState).deviceToUser 3 4).1
        ((buildTransform sampleState).deviceToUser 3 4).2).2 - 4| ≤ 1) := by
  have hscale : (mutateClamped sampleState
      (fun s => { s with scale := s.scale * 2 })).scale = 2 := by
    simp [mutateClamped, clamp, sampleState]
    norm_num
  have hdet : stateDet (mutateClamped sampleState
      (fun s => { s with scale := s.scale * 2 })) ≠ 0 := by
    unfold stateDet
    rw [hscale, snapScale_two]
    have hc : (mutateClamped sampleState
        (fun s => { s with scale := s.scale * 2 })).rot_c = 1 := by
      simp [mutateClamped, sampleState]
    have hs : (mutateClamped sampleState
        (fun s => { s with scale := s.scale * 2 })).rot_s = 0 := by
      simp [mutateClamped, sampleState]
    rw [hc, hs]
    norm_num
  exact ⟨hdet, C4_rotozoom_anchor sampleState _ 3 4 hdet⟩

/-- C9: when the stored scale is within the snap tolerance of the exact
power of two `2^n`, building the rendering transform uses exactly `2^n`
for the scale component of the matrix, while the method returns the
state unchanged — every stored field, the scale included, is left as it
was. -/
theorem C9_power_of_two_snap (st : TDWState) (n : ℤ)
    (h1 : 0 < st.scale) (h2 : inSnapBand st.scale n)
    (h3 : st.rot_c ^ 2 + st.rot_s ^ 2 ≠ 0) :
    (getModelCoordinatesCairoContext st).1 = st ∧
    snapScale st.scale = 2 ^ n ∧
    buildTransform st =
      ⟨(if st.mirrored then (-1 : ℚ) else 1) * ((2 : ℚ) ^ n * st.rot_c),
       (2 : ℚ) ^ n * st.rot_s,
       -((if st.mirrored then (-1 : ℚ) else 1) * ((2 : ℚ) ^ n * st.rot_s)),
       (2 : ℚ) ^ n * st.rot_c,
       (pyRound st.translation_x : ℚ),
       (pyRound st.translation_y : ℚ)⟩ := by
  have hsnap := snapScale_of_inSnapBand h1 h2
  have hdet : stateDet st ≠ 0 := by
    unfold stateDet
    exact mul_ne_zero (pow_ne_zero 2 (snapScale_pos h1).ne') h3
  refine ⟨rfl, hsnap, ?_⟩
  rw [buildTransform_eq st hdet, hsnap]

/-- Witness for C9: stored scale `201/100` is inside the snap band of
`2^1`; the transform uses scale exactly 2 while the stored scale stays
`201/100`. -/
theorem C9_power_of_two_snap_witness :
    (0 : ℚ) < ({ sampleState with scale := 201/100 } : TDWState).scale ∧
    inSnapBand ({ sampleState with scale := 201/100 } : TDWState).scale 1 ∧
    ({ sampleState with scale := 201/100 } : TDWState).rot_c ^ 2 +
      ({ sampleState with scale := 201/100 } : TDWState).rot_s ^ 2 ≠ 0 ∧
    ((getModelCoordinatesCairoContext
        ({ sampleState with scale := 201/100 } : TDWState)).1 =
      ({ sampleState with scale := 201/100 } : TDWState) ∧
    snapScale ({ sampleState with scale := 201/100 } : TDWState).scale =
      2 ^ (1 : ℤ) ∧
    buildTransform ({ sampleState with scale := 201/100 } : TDWState) =
      ⟨(if ({ sampleState with scale := 201/100 } : TDWState).mirrored
          then (-1 : ℚ) else 1) *
         ((2 : ℚ) ^ (1 : ℤ) *
          ({ sampleState with scale := 201/100 } : TDWState).rot_c),
       (2 : ℚ) ^ (1 : ℤ) *
         ({ sampleState with scale := 201/100 } : TDWState).rot_s,
       -((if ({ sampleState with scale := 201/100 } : TDWState).mirrored
          then (-1 : ℚ) else 1) *
         ((2 : ℚ) ^ (1 : ℤ) *
          ({ sampleState with scale := 201/100 } : TDWState).rot_s)),
       (2 : ℚ) ^ (1 : ℤ) *
         ({ sampleState with scale := 201/100 } : TDWState).rot_c,
       (pyRound ({ sampleState with scale := 201/100 } : TDWState).translation_x : ℚ),
       (pyRound ({ sampleState with scale := 201/100 } : TDWState).translation_y : ℚ)⟩) := by
  have hp : (0 : ℚ) < ({ sampleState with scale := 201/100 } : TDWState).scale := by
    show (0 : ℚ) < 201/100
    norm_num
  have hband : inSnapBand ({ sampleState with scale := 201/100 } : TDWState).scale 1 := by
    show inSnapBand (201/100 : ℚ) 1
    unfold inSnapBand
    norm_num
  have hrot : ({ sampleState with scale := 201/100 } : TDWState).rot_c ^ 2 +
      ({ sampleState with scale := 201/100 } : TDWState).rot_s ^ 2 ≠ 0 := by
    simp [sampleState]
  exact ⟨hp, hband, hrot,
    C9_power_of_two_snap ({ sampleState with scale := 201/100 }) 1 hp hband hrot⟩

theorem pyInt_intCast (n : ℤ) : pyInt (n : ℚ) = n := by
  unfold pyInt
  split
  · exact Int.floor_intCast n
  · rw [show (-(n : ℚ)) = ((-n : ℤ) : ℚ) by push_cast; ring, Int.floor_intCast]
    ring

theorem buildTransform_translation_only (st : TDWState)
    (h : isTranslationOnly st) :
    buildTransform st =
      ⟨1, 0, 0, 1, (pyRound st.translation_x : ℚ),
       (pyRound st.translation_y : ℚ)⟩ := by
  obtain ⟨hc, hs, hsc, hm⟩ := h
  have hdet : stateDet st ≠ 0 := by
    unfold stateDet
    rw [hsc, hc, hs, snapScale_one]
    norm_num
  rw [buildTransform_eq st hdet, hsc, hc, hs, snapScale_one, hm]
  norm_num

theorem affine_rect_bound (a b c x1 x2 y1 y2 px py : ℚ)
    (hx1 : x1 ≤ px) (hx2 : px ≤ x2) (hy1 : y1 ≤ py) (hy2 : py ≤ y2) :
    min (min (a * x1 + b * y1 + c) (a * x2 + b * y1 + c))
        (min (a * x1 + b * y2 + c) (a * x2 + b * y2 + c)) ≤
      a * px + b * py + c ∧
    a * px + b * py + c ≤
      max (max (a * x1 + b * y1 + c) (a * x2 + b * y1 + c))
          (max (a * x1 + b * y2 + c) (a * x2 + b * y2 + c)) := by
  constructor
  · rcases le_total 0 a with ha | ha <;> rcases le_total 0 b with hb | hb <;>
      rw [min_le_iff, min_le_iff, min_le_iff] <;>
      first
        | (left; left; nlinarith)
        | (left; right; nlinarith)
        | (right; left; nlinarith)
        | (right; right; nlinarith)
  · rcases le_total 0 a with ha | ha <;> rcases le_total 0 b with hb | hb <;>
      rw [le_max_iff, le_max_iff, le_max_iff] <;>
      first
        | (left; left; nlinarith)
        | (left; right; nlinarith)
        | (right; left; nlinarith)
        | (right; right; nlinarith)

/-- C5: with a realized window, the `(0, 0)` sentinel invalidates the
whole viewport; a translation-only transform maps the model rectangle
exactly (shifted by the integer-rounded translation); any other
transform invalidates the rotated-rectangle device bbox, which contains
the device image of every point of the model rectangle; and every
notification issues exactly one invalidation request. -/
theorem C5_dirty_region (st : TDWState) (x1 y1 w h : ℤ) :
    (canvasModifiedCb st true x1 y1 0 0 = [.fullViewport]) ∧
    (isTranslationOnly st → ¬(w = 0 ∧ h = 0) →
      canvasModifiedCb st true x1 y1 w h =
        [.area ⟨x1 + pyRound st.translation_x, y1 + pyRound st.translation_y,
          w, h⟩]) ∧
    (¬(w = 0 ∧ h = 0) → ¬isTranslationOnly st →
      ∃ r : Rect, canvasModifiedCb st true x1 y1 w h = [.area r] ∧
        ∀ px py : ℚ, (x1 : ℚ) ≤ px → px ≤ ((x1 + w - 1 : ℤ) : ℚ) →
          (y1 : ℚ) ≤ py → py ≤ ((y1 + h - 1 : ℤ) : ℚ) →
          (r.x : ℚ) ≤ ((buildTransform st).userToDevice px py).1 ∧
          ((buildTransform st).userToDevice px py).1 ≤ ((r.x + r.w - 1 : ℤ) : ℚ) ∧
          (r.y : ℚ) ≤ ((buildTransform st).userToDevice px py).2 ∧
          ((buildTransform st).userToDevice px py).2 ≤ ((r.y + r.h - 1 : ℤ) : ℚ)) ∧
    (canvasModifiedCb st true x1 y1 w h).length = 1 := by
  refine ⟨by simp [canvasModifiedCb], ?_, ?_, ?_⟩
  · intro hTO hwh
    rw [canvasModifiedCb, if_neg (by simp), if_neg hwh, if_pos hTO,
      buildTransform_translation_only st hTO]
    simp only [CairoMatrix.userToDevice]
    norm_num
    constructor
    · rw [show (x1 : ℚ) + (pyRound st.translation_x : ℚ) =
          ((x1 + pyRound st.translation_x : ℤ) : ℚ) by push_cast; ring,
        pyInt_intCast]
    · rw [show (y1 : ℚ) + (pyRound st.translation_y : ℚ) =
          ((y1 + pyRound st.translation_y : ℤ) : ℚ) by push_cast; ring,
        pyInt_intCast]
  · intro hwh hTO
    rw [canvasModifiedCb, if_neg (by simp), if_neg hwh, if_neg hTO]
    refine ⟨_, rfl, ?_⟩
    intro px py hpx1 hpx2 hpy1 hpy2
    set m := buildTransform st with hm
    simp only [CairoMatrix.userToDevice, rotatedRectangleBbox]
    push_cast at hpx2 hpy2
    have hbx := affine_rect_bound m.xx m.xy m.x0 x1 ((x1 : ℚ) + w - 1) y1
      ((y1 : ℚ) + h - 1) px py hpx1 hpx2 hpy1 hpy2
    have hby := affine_rect_bound m.yx m.yy m.y0 x1 ((x1 : ℚ) + w - 1) y1
      ((y1 : ℚ) + h - 1) px py hpx1 hpx2 hpy1 hpy2
    push_cast
    rw [show ((x1 : ℚ) + w - 1) = ((x1 + w - 1 : ℤ) : ℚ) by push_cast; ring] at hbx hby
    rw [show ((y1 : ℚ) + h - 1) = ((y1 + h - 1 : ℤ) : ℚ) by push_cast; ring] at hbx hby
    push_cast at hbx hby
    refine ⟨?_, ?_, ?_, ?_⟩
    · exact le_trans (Int.floor_le _) hbx.1
    · have := Int.le_ceil (max (max (m.xx * ↑x1 + m.xy * ↑y1 + m.x0)
        (m.xx * (↑x1 + ↑w - 1) + m.xy * ↑y1 + m.x0))
        (max (m.xx * ↑x1 + m.xy * (↑y1 + ↑h - 1) + m.x0)
        (m.xx * (↑x1 + ↑w - 1) + m.xy * (↑y1 + ↑h - 1) + m.x0)))
      have h2 := hbx.2
      ring_nf
      ring_nf at h2 this
      linarith
    · exact le_trans (Int.floor_le _) hby.1
    · have := Int.le_ceil (max (max (m.yx * ↑x1 + m.yy * ↑y1 + m.y0)
        (m.yx * (↑x1 + ↑w - 1) + m.yy * ↑y1 + m.y0))
        (max (m.yx * ↑x1 + m.yy * (↑y1 + ↑h - 1) + m.y0)
        (m.yx * (↑x1 + ↑w - 1) + m.yy * (↑y1 + ↑h - 1) + m.y0)))
      have h2 := hby.2
      ring_nf
      ring_nf at h2 this
      linarith
  · by_cases hwh : w = 0 ∧ h = 0
    · obtain ⟨rfl, rfl⟩ := hwh
      simp [canvasModifiedCb]
    · by_cases hTO : isTranslationOnly st <;>
        rw [canvasModifiedCb, if_neg (by simp), if_neg hwh] <;>
        simp [hTO]

/-- Witness for C5 at the default state and the model rectangle
`(0, 0, 10, 10)`. -/
theorem C5_dirty_region_witness :
    (canvasModifiedCb sampleState true 0 0 0 0 = [.fullViewport]) ∧
    (isTranslationOnly sampleState → ¬((10 : ℤ) = 0 ∧ (10 : ℤ) = 0) →
      canvasModifiedCb sampleState true 0 0 10 10 =
        [.area ⟨0 + pyRound sampleState.translation_x,
          0 + pyRound sampleState.translation_y, 10, 10⟩]) ∧
    (¬((10 : ℤ) = 0 ∧ (10 : ℤ) = 0) → ¬isTranslationOnly sampleState →
      ∃ r : Rect, canvasModifiedCb sampleState true 0 0 10 10 = [.area r] ∧
        ∀ px py : ℚ, ((0 : ℤ) : ℚ) ≤ px → px ≤ ((0 + 10 - 1 : ℤ) : ℚ) →
          ((0 : ℤ) : ℚ) ≤ py → py ≤ ((0 + 10 - 1 : ℤ) : ℚ) →
          (r.x : ℚ) ≤ ((buildTransform sampleState).userToDevice px py).1 ∧
          ((buildTransform sampleState).userToDevice px py).1 ≤
            ((r.x + r.w - 1 : ℤ) : ℚ) ∧
          (r.y : ℚ) ≤ ((buildTransform sampleState).userToDevice px py).2 ∧
          ((buildTransform sampleState).userToDevice px py).2 ≤
            ((r.y + r.h - 1 : ℤ) : ℚ)) ∧
    (canvasModifiedCb sampleState true 0 0 10 10).length = 1 :=
  C5_dirty_region sampleState 0 0 10 10

theorem fdiv_eq_of_bounds {a t : ℤ} {N : ℕ} (hN : 0 < N)
    (h1 : (N : ℤ) * t ≤ a) (h2 : a < (N : ℤ) * (t + 1)) : a.fdiv N = t := by
  rw [Int.fdiv_eq_ediv a (by positivity)]
  have hN' : (0 : ℤ) < N := by exact_mod_cast hN
  have hle : t ≤ a / N := by
    rw [Int.le_ediv_iff_mul_le hN']
    linarith
  have hlt : a / N < t + 1 := by
    rw [Int.ediv_lt_iff_lt_mul hN']
    linarith
  omega

theorem getTiles_singleton {x y w h tx ty : ℤ} {N : ℕ} (hN : 0 < N)
    (hx1 : (N : ℤ) * tx ≤ x) (hx2 : x + w - 1 < (N : ℤ) * (tx + 1))
    (hy1 : (N : ℤ) * ty ≤ y) (hy2 : y + h - 1 < (N : ℤ) * (ty + 1))
    (hw : 1 ≤ w) (hh : 1 ≤ h) :
    getTiles ⟨x, y, w, h⟩ N = [(tx, ty)] := by
  unfold getTiles
  dsimp only
  rw [fdiv_eq_of_bounds hN hx1 (by linarith),
      fdiv_eq_of_bounds hN (by linarith : (N : ℤ) * tx ≤ x + w - 1) hx2,
      fdiv_eq_of_bounds hN hy1 (by linarith),
      fdiv_eq_of_bounds hN (by linarith : (N : ℤ) * ty ≤ y + h - 1) hy2]
  norm_num
  simp [List.range_succ]

theorem selectMipmapLevel_one (maxLevel : ℕ) :
    selectMipmapLevel maxLevel 1 = 0 := by
  unfold selectMipmapLevel
  norm_num

theorem clipExtents_translation (B1 B2 : ℤ) (r : Rect)
    (hw : 0 ≤ r.w) (hh : 0 ≤ r.h) :
    clipExtents ⟨1, 0, 0, 1, (B1 : ℚ), (B2 : ℚ)⟩ r =
      (((r.x - B1 : ℤ) : ℚ), ((r.y - B2 : ℤ) : ℚ),
       ((r.x + r.w - B1 : ℤ) : ℚ), ((r.y + r.h - B2 : ℤ) : ℚ)) := by
  unfold clipExtents CairoMatrix.deviceToUser CairoMatrix.det
  have hwq : (0 : ℚ) ≤ (r.w : ℚ) := by exact_mod_cast hw
  have hhq : (0 : ℚ) ≤ (r.h : ℚ) := by exact_mod_cast hh
  norm_num
  exact ⟨hw, hh, hw, hh⟩

/-- C6: rendering a device region that lies fully inside the
model-space extent of one tile, at scale 1, rotation 0 and mirror off,
with the region's centre inside the window clip region, requests a blit
of exactly that one tile at mipmap level 0. -/
theorem C6_single_tile (st : TDWState) (maxLevel N : ℕ) (hN : 0 < N)
    (deviceBbox clip : Rect) (tx ty : ℤ)
    (hTO : isTranslationOnly st)
    (hw : 0 ≤ deviceBbox.w) (hh : 0 ≤ deviceBbox.h)
    (hclip : clip.pointIn (deviceBbox.x + deviceBbox.w.fdiv 2)
      (deviceBbox.y + deviceBbox.h.fdiv 2))
    (hx1 : (N : ℤ) * tx ≤ deviceBbox.x - pyRound st.translation_x)
    (hx2 : deviceBbox.x + deviceBbox.w - pyRound st.translation_x ≤
      (N : ℤ) * (tx + 1) - 1)
    (hy1 : (N : ℤ) * ty ≤ deviceBbox.y - pyRound st.translation_y)
    (hy2 : deviceBbox.y + deviceBbox.h - pyRound st.translation_y ≤
      (N : ℤ) * (ty + 1) - 1) :
    repaintBlits st maxLevel N deviceBbox clip = [(tx, ty, 0)] := by
  obtain ⟨hc, hs, hsc, hm⟩ := hTO
  have hTO' : isTranslationOnly st := ⟨hc, hs, hsc, hm⟩
  unfold repaintBlits
  rw [buildTransform_translation_only st hTO', hsc, selectMipmapLevel_one]
  simp only [zpow_zero]
  rw [show (CairoMatrix.mk 1 0 0 1 (pyRound st.translation_x : ℚ)
      (pyRound st.translation_y : ℚ)).scaleBy 1 1 =
    CairoMatrix.mk 1 0 0 1 (pyRound st.translation_x : ℚ)
      (pyRound st.translation_y : ℚ) by simp [CairoMatrix.scaleBy]]
  rw [clipExtents_translation (pyRound st.translation_x)
    (pyRound st.translation_y) deviceBbox hw hh]
  simp only [if_pos hTO', Int.floor_intCast, Int.ceil_intCast]
  rw [show (deviceBbox.x + deviceBbox.w - pyRound st.translation_x) -
      (deviceBbox.x - pyRound st.translation_x) + 1 = deviceBbox.w + 1 by ring]
  rw [show (deviceBbox.y + deviceBbox.h - pyRound st.translation_y) -
      (deviceBbox.y - pyRound st.translation_y) + 1 = deviceBbox.h + 1 by ring]
  rw [getTiles_singleton hN hx1 (by omega) hy1 (by omega) (by omega) (by omega)]
  simp [hclip]

/-- Witness for C6: the default state, a 20×20 device region at
(10, 10) inside tile (0, 0) with `N = 64`, clip region covering the
window. -/
theorem C6_single_tile_witness :
    0 < 64 ∧ isTranslationOnly sampleState ∧
    (0 : ℤ) ≤ (Rect.mk 10 10 20 20).w ∧ (0 : ℤ) ≤ (Rect.mk 10 10 20 20).h ∧
    (Rect.mk 0 0 100 100).pointIn
      ((Rect.mk 10 10 20 20).x + (Rect.mk 10 10 20 20).w.fdiv 2)
      ((Rect.mk 10 10 20 20).y + (Rect.mk 10 10 20 20).h.fdiv 2) ∧
    ((64 : ℕ) : ℤ) * 0 ≤ (Rect.mk 10 10 20 20).x -
      pyRound sampleState.translation_x ∧
    (Rect.mk 10 10 20 20).x + (Rect.mk 10 10 20 20).w -
      pyRound sampleState.translation_x ≤ ((64 : ℕ) : ℤ) * (0 + 1) - 1 ∧
    repaintBlits sampleState 4 64 (Rect.mk 10 10 20 20) (Rect.mk 0 0 100 100) =
      [(0, 0, 0)] := by
  have hTO : isTranslationOnly sampleState := by
    unfold isTranslationOnly sampleState
    norm_num
  have hr0 : pyRound sampleState.translation_x = 0 := by
    unfold sampleState pyRound
    norm_num
  have hr0y : pyRound sampleState.translation_y = 0 := by
    unfold sampleState pyRound
    norm_num
  have hclip : (Rect.mk 0 0 100 100).pointIn
      ((Rect.mk 10 10 20 20).x + (Rect.mk 10 10 20 20).w.fdiv 2)
      ((Rect.mk 10 10 20 20).y + (Rect.mk 10 10 20 20).h.fdiv 2) := by
    unfold Rect.pointIn
    norm_num [Int.fdiv]
  refine ⟨by norm_num, hTO, by norm_num, by norm_num, hclip,
    by rw [hr0]; norm_num, by rw [hr0]; norm_num, ?_⟩
  exact C6_single_tile sampleState 4 64 (by norm_num)
    (Rect.mk 10 10 20 20) (Rect.mk 0 0 100 100) 0 0 hTO
    (by norm_num) (by norm_num) hclip
    (by rw [hr0]; norm_num) (by rw [hr0]; norm_num)
    (by rw [hr0y]; norm_num) (by rw [hr0y]; norm_num)

/-! ## Pressure-validation lemmas -/

/-- `event` reports an out-of-band pressure for device `dev`. -/
def reportsOutOfBand (e : GdkEvent) (dev : Nat) : Prop :=
  e.device = dev ∧ ∃ p, e.pressure = some p ∧ (1 < p ∨ p < 0)

instance (e : GdkEvent) (dev : Nat) : Decidable (reportsOutOfBand e dev) := by
  unfold reportsOutOfBand; infer_instance

theorem checkPressure_far (bad : List Nat) (dev : Nat) (p : ℚ)
    (h : 1000 < p ∨ p < -1000) : (checkPressure bad dev p).1 = none := by
  have h' : 1 < p ∨ p < 0 := by
    rcases h with h | h
    · left; linarith
    · right; linarith
  simp only [checkPressure]
  rw [if_pos h', if_pos h]

theorem checkPressure_inband (bad : List Nat) (dev : Nat) (p : ℚ)
    (h : ¬(1000 < p ∨ p < -1000)) : (checkPressure bad dev p).1 = some p := by
  push_neg at h
  simp only [checkPressure]
  split
  · rw [if_neg (by push_neg; exact ⟨h.1, h.2⟩)]
  · rfl

theorem checkPressure_warnings (bad : List Nat) (dev : Nat) (p : ℚ) :
    (checkPressure bad dev p).2.2 =
      (if (1 < p ∨ p < 0) ∧ dev ∉ bad then [.badPressure dev p] else []) ∧
    (checkPressure bad dev p).2.1 =
      (if (1 < p ∨ p < 0) ∧ dev ∉ bad then bad ++ [dev] else bad) := by
  simp only [checkPressure]
  by_cases hp : 1 < p ∨ p < 0
  · by_cases hd : dev ∈ bad
    · rw [if_pos hp]
      simp only [if_pos hd]
      simp only [if_neg (show ¬((1 < p ∨ p < 0) ∧ dev ∉ bad) by simp [hd])]
      constructor <;> split <;> rfl
    · rw [if_pos hp]
      simp only [if_neg hd]
      simp only [if_pos (show (1 < p ∨ p < 0) ∧ dev ∉ bad from ⟨hp, hd⟩)]
      constructor <;> split <;> rfl
  · rw [if_neg hp]
    simp only [if_neg (show ¬((1 < p ∨ p < 0) ∧ dev ∉ bad) by simp [hp])]
    simp

theorem countBadWarnings_append (dev : Nat) (a b : List MotionWarning) :
    countBadWarnings dev (a ++ b) =
      countBadWarnings dev a + countBadWarnings dev b := by
  simp [countBadWarnings, List.filter_append]

theorem countBadWarnings_nil (dev : Nat) : countBadWarnings dev [] = 0 := rfl

theorem countBadWarnings_self (dev : Nat) (p : ℚ) :
    countBadWarnings dev [.badPressure dev p] = 1 := by
  simp [countBadWarnings]

theorem countBadWarnings_timeBackwards (dev : Nat) (q : ℚ) :
    countBadWarnings dev [.timeBackwards q] = 0 := by
  simp [countBadWarnings]

theorem emitMotion_warnings (ms : List MotionData) (dtime : ℚ)
    (data : MotionData) :
    (emitMotion ms dtime data).2.2 =
      (if dtime < 0 then [.timeBackwards dtime] else []) := by
  rcases lt_trichotomy dtime 0 with h | h | h
  · rw [emitMotion_neg ms dtime data h, if_pos h]
  · subst h
    rw [emitMotion_zero]
    norm_num
  · rw [if_neg (by linarith)]
    by_cases hms : ms = []
    · subst hms
      simp [emitMotion, not_lt.mpr h.le, h.ne', h]
    · rw [emitMotion_pos ms dtime data hms h]

theorem countBadWarnings_emitMotion (dev : Nat) (ms : List MotionData)
    (dtime : ℚ) (data : MotionData) :
    countBadWarnings dev (emitMotion ms dtime data).2.2 = 0 := by
  rw [emitMotion_warnings]
  split
  · exact countBadWarnings_timeBackwards dev dtime
  · rfl

@[simp] theorem deviceUsed_bad_devices (st : TDWState) (d : Nat) :
    (deviceUsed st d).bad_devices = st.bad_devices := by
  unfold deviceUsed; split <;> rfl

@[simp] theorem deviceUsed_dragfunc (st : TDWState) (d : Nat) :
    (deviceUsed st d).dragfunc = st.dragfunc := by
  unfold deviceUsed; split <;> rfl

@[simp] theorem deviceUsed_is_sensitive (st : TDWState) (d : Nat) :
    (deviceUsed st d).is_sensitive = st.is_sensitive := by
  unfold deviceUsed; split <;> rfl

@[simp] theorem deviceUsed_pressure_mapping (st : TDWState) (d : Nat) :
    (deviceUsed st d).pressure_mapping = st.pressure_mapping := by
  unfold deviceUsed; split <;> rfl

@[simp] theorem deviceUsed_motions (st : TDWState) (d : Nat) :
    (deviceUsed st d).motions = st.motions := by
  unfold deviceUsed; split <;> rfl

@[simp] theorem deviceUsed_last_event_x (st : TDWState) (d : Nat) :
    (deviceUsed st d).last_event_x = st.last_event_x := by
  unfold deviceUsed; split <;> rfl

@[simp] theorem deviceUsed_last_event_y (st : TDWState) (d : Nat) :
    (deviceUsed st d).last_event_y = st.last_event_y := by
  unfold deviceUsed; split <;> rfl

@[simp] theorem deviceUsed_last_event_time (st : TDWState) (d : Nat) :
    (deviceUsed st d).last_event_time = st.last_event_time := by
  unfold deviceUsed; split <;> rfl

/-- The invariant under which every event of a stream reaches the
pressure check of `motion_notify_cb`: the widget is sensitive, no drag
is active, and a previous event has been recorded with a truthy
(nonzero) timestamp — `if self.last_event_time:` at line 131 is a
Python truthiness test, and a stored timestamp of 0 is falsy. -/
def motionInv (st : TDWState) : Prop :=
  st.is_sensitive = true ∧ st.dragfunc = none ∧
    ∃ t0, st.last_event_time = some t0 ∧ t0 ≠ 0

/-- One `motion_notify_cb` call either issues no bad-pressure warning
and leaves `bad_devices` alone, or routes its pressure value through
`checkPressure`. -/
theorem motionNotifyCb_count (st : TDWState) (e : GdkEvent)
    (b1 : Option Bool) (dev : Nat) :
    (countBadWarnings dev (motionNotifyCb st e b1).warnings = 0 ∧
      (motionNotifyCb st e b1).state.bad_devices = st.bad_devices) ∨
    (∃ p, e.pressure = some p ∧
      countBadWarnings dev (motionNotifyCb st e b1).warnings =
        countBadWarnings dev (checkPressure st.bad_devices e.device p).2.2 ∧
      (motionNotifyCb st e b1).state.bad_devices =
        (checkPressure st.bad_devices e.device p).2.1) := by
  unfold motionNotifyCb
  by_cases hsens : st.is_sensitive = false
  · rw [if_pos hsens]
    exact Or.inl ⟨rfl, rfl⟩
  · rw [if_neg hsens]
    cases hlt : st.last_event_time with
    | none =>
      simp only [hlt, Option.map_none']
      exact Or.inl ⟨rfl, by simp⟩
    | some t0 =>
      simp only [hlt]
      by_cases ht0 : t0 = 0
      · rw [if_neg (by simp [ht0])]
        exact Or.inl ⟨rfl, by simp⟩
      · rw [if_pos ht0]
        cases hdf : st.dragfunc with
        | some f =>
          simp only [deviceUsed_dragfunc, hdf]
          exact Or.inl ⟨rfl, by simp⟩
        | none =>
          simp only [deviceUsed_dragfunc, hdf]
          cases hpr : e.pressure with
          | none =>
            refine Or.inl ?_
            simp only [hpr]
            constructor
            · dsimp only
              rcases hpm : st.pressure_mapping with _ | f <;>
                simp only [deviceUsed_pressure_mapping, hpm] <;>
                (repeat' split) <;>
                simp [countBadWarnings_append, countBadWarnings_emitMotion,
                  countBadWarnings_nil]
            · dsimp only
              rcases hpm : st.pressure_mapping with _ | f <;>
                simp only [deviceUsed_pressure_mapping, hpm] <;>
                (repeat' split) <;> simp
          | some p =>
            refine Or.inr ⟨p, rfl, ?_⟩
            simp only [hpr]
            simp only [deviceUsed_bad_devices]
            generalize hck : checkPressure st.bad_devices e.device p = ck
            obtain ⟨po, bd, ws⟩ := ck
            rcases po with _ | q <;>
              rcases hpm : st.pressure_mapping with _ | f <;>
              simp only [deviceUsed_pressure_mapping, hpm] <;>
              constructor <;>
              (repeat' split) <;>
              simp [countBadWarnings_append, countBadWarnings_emitMotion]

/-- Under the invariant, a present pressure value definitely reaches
the `checkPressure` validation. -/
theorem motionNotifyCb_count_inv (st : TDWState) (e : GdkEvent)
    (b1 : Option Bool) (dev : Nat) (hinv : motionInv st) (p : ℚ)
    (hp : e.pressure = some p) :
    countBadWarnings dev (motionNotifyCb st e b1).warnings =
      countBadWarnings dev (checkPressure st.bad_devices e.device p).2.2 ∧
    (motionNotifyCb st e b1).state.bad_devices =
      (checkPressure st.bad_devices e.device p).2.1 := by
  obtain ⟨hsens, hdf, t0, hlt', ht0⟩ := hinv
  unfold motionNotifyCb
  rw [if_neg (by rw [hsens]; simp)]
  simp only [hlt']
  rw [if_pos ht0]
  simp only [deviceUsed_dragfunc, hdf, hp, deviceUsed_bad_devices]
  generalize checkPressure st.bad_devices e.device p = ck
  obtain ⟨po, bd, ws⟩ := ck
  rcases po with _ | q <;>
    rcases hpm : st.pressure_mapping with _ | f <;>
    simp only [deviceUsed_pressure_mapping, hpm] <;>
    constructor <;>
    (repeat' split) <;>
    simp [countBadWarnings_append, countBadWarnings_emitMotion]

theorem motionNotifyCb_inv (st : TDWState) (e : GdkEvent) (b1 : Option Bool)
    (hinv : motionInv st) (het : e.time ≠ 0) :
    motionInv (motionNotifyCb st e b1).state := by
  obtain ⟨hsens, hdf, t0, hlt', ht0⟩ := hinv
  unfold motionInv motionNotifyCb
  rw [if_neg (by rw [hsens]; simp)]
  simp only [hlt']
  rw [if_pos ht0]
  simp only [deviceUsed_dragfunc, hdf]
  rcases hpr : e.pressure with _ | p <;> simp only [hpr]
  · rcases hpm : st.pressure_mapping with _ | f <;>
      simp only [deviceUsed_pressure_mapping, hpm] <;>
      (repeat' split) <;>
      simp [hsens, het]
  · generalize checkPressure st.bad_devices e.device p = ck
    obtain ⟨po, bd, ws⟩ := ck
    rcases po with _ | q <;>
      rcases hpm : st.pressure_mapping with _ | f <;>
      simp only [deviceUsed_pressure_mapping, hpm] <;>
      (repeat' split) <;>
      simp [hsens, het]

theorem motionNotifyCb_bad_mono (st : TDWState) (e : GdkEvent)
    (b1 : Option Bool) (dev : Nat) (h : dev ∈ st.bad_devices) :
    dev ∈ (motionNotifyCb st e b1).state.bad_devices := by
  rcases motionNotifyCb_count st e b1 dev with ⟨_, hbd⟩ | ⟨p, _, _, hbd⟩
  · rw [hbd]; exact h
  · rw [hbd, (checkPressure_warnings _ _ _).2]
    split
    · exact List.mem_append_left _ h
    · exact h

theorem motionNotifyCb_count_flagged (st : TDWState) (e : GdkEvent)
    (b1 : Option Bool) (dev : Nat) (h : dev ∈ st.bad_devices) :
    countBadWarnings dev (motionNotifyCb st e b1).warnings = 0 := by
  rcases motionNotifyCb_count st e b1 dev with ⟨hc, _⟩ | ⟨p, _, hc, _⟩
  · exact hc
  · rw [hc, (checkPressure_warnings _ _ _).1]
    split
    · rename_i hcond
      have : e.device ≠ dev := fun heq => hcond.2 (heq ▸ h)
      simp [countBadWarnings, this]
    · rfl

theorem motionNotifyCb_count_le_one (st : TDWState) (e : GdkEvent)
    (b1 : Option Bool) (dev : Nat) :
    countBadWarnings dev (motionNotifyCb st e b1).warnings ≤ 1 := by
  rcases motionNotifyCb_count st e b1 dev with ⟨hc, _⟩ | ⟨p, _, hc, _⟩
  · omega
  · rw [hc, (checkPressure_warnings _ _ _).1]
    split
    · by_cases hed : e.device = dev
      · subst hed
        rw [countBadWarnings_self]
      · simp [countBadWarnings, hed]
    · exact Nat.zero_le 1

theorem motionNotifyCb_mem_of_count_pos (st : TDWState) (e : GdkEvent)
    (b1 : Option Bool) (dev : Nat)
    (h : 1 ≤ countBadWarnings dev (motionNotifyCb st e b1).warnings) :
    dev ∈ (motionNotifyCb st e b1).state.bad_devices := by
  rcases motionNotifyCb_count st e b1 dev with ⟨hc, _⟩ | ⟨p, _, hc, hbd⟩
  · omega
  · rw [hc, (checkPressure_warnings _ _ _).1] at h
    rw [hbd, (checkPressure_warnings _ _ _).2]
    split at h
    · rename_i hcond
      by_cases hed : e.device = dev
      · rw [if_pos hcond]
        subst hed
        exact List.mem_append_right _ (List.mem_singleton_self _)
      · rw [countBadWarnings] at h
        simp [hed] at h
    · rw [countBadWarnings_nil] at h
      omega

theorem motionNotifyCb_count_no_trigger (st : TDWState) (e : GdkEvent)
    (b1 : Option Bool) (dev : Nat) (h : ¬ reportsOutOfBand e dev)
    (hd : dev ∉ st.bad_devices) :
    countBadWarnings dev (motionNotifyCb st e b1).warnings = 0 ∧
    dev ∉ (motionNotifyCb st e b1).state.bad_devices := by
  rcases motionNotifyCb_count st e b1 dev with ⟨hc, hbd⟩ | ⟨p, hp, hc, hbd⟩
  · exact ⟨hc, hbd ▸ hd⟩
  · rw [hc, (checkPressure_warnings _ _ _).1, hbd,
      (checkPressure_warnings _ _ _).2]
    split
    · rename_i hcond
      have hed : e.device ≠ dev := by
        intro heq
        exact h ⟨heq, p, hp, hcond.1⟩
      constructor
      · simp [countBadWarnings, hed]
      · intro hmem
        rcases List.mem_append.mp hmem with hmem | hmem
        · exact hd hmem
        · exact hed (List.mem_singleton.mp hmem).symm
    · exact ⟨rfl, hd⟩

theorem motionNotifyCb_count_trigger (st : TDWState) (e : GdkEvent)
    (b1 : Option Bool) (dev : Nat) (hinv : motionInv st)
    (htr : reportsOutOfBand e dev) (hd : dev ∉ st.bad_devices) :
    countBadWarnings dev (motionNotifyCb st e b1).warnings = 1 ∧
    dev ∈ (motionNotifyCb st e b1).state.bad_devices := by
  obtain ⟨hed, p, hp, hpo⟩ := htr
  obtain ⟨hc, hbd⟩ := motionNotifyCb_count_inv st e b1 dev hinv p hp
  rw [hc, (checkPressure_warnings _ _ _).1, hbd,
    (checkPressure_warnings _ _ _).2]
  have hcond : (1 < p ∨ p < 0) ∧ e.device ∉ st.bad_devices :=
    ⟨hpo, by rw [hed]; exact hd⟩
  rw [if_pos hcond, if_pos hcond]
  constructor
  · rw [hed]
    exact countBadWarnings_self dev p
  · rw [hed]
    exact List.mem_append_right _ (List.mem_singleton_self _)

theorem runEvents_count_flagged (evts : List (GdkEvent × Option Bool))
    (st : TDWState) (dev : Nat) (h : dev ∈ st.bad_devices) :
    countBadWarnings dev (runEvents st evts).2.2 = 0 := by
  induction evts generalizing st with
  | nil => rfl
  | cons eb rest ih =>
    obtain ⟨e, b1⟩ := eb
    simp only [runEvents]
    rw [countBadWarnings_append,
      motionNotifyCb_count_flagged st e b1 dev h,
      ih _ (motionNotifyCb_bad_mono st e b1 dev h)]

theorem runEvents_count_le_one (evts : List (GdkEvent × Option Bool))
    (st : TDWState) (dev : Nat) (h : dev ∉ st.bad_devices) :
    countBadWarnings dev (runEvents st evts).2.2 ≤ 1 := by
  induction evts generalizing st with
  | nil => simp [runEvents, countBadWarnings_nil]
  | cons eb rest ih =>
    obtain ⟨e, b1⟩ := eb
    simp only [runEvents]
    rw [countBadWarnings_append]
    by_cases hmem : dev ∈ (motionNotifyCb st e b1).state.bad_devices
    · have h2 := runEvents_count_flagged rest _ dev hmem
      have h1 := motionNotifyCb_count_le_one st e b1 dev
      omega
    · have h1 : countBadWarnings dev (motionNotifyCb st e b1).warnings = 0 := by
        by_contra hne
        exact hmem (motionNotifyCb_mem_of_count_pos st e b1 dev (by omega))
      have h2 := ih _ hmem
      omega

theorem runEvents_count_eq_one (evts : List (GdkEvent × Option Bool))
    (st : TDWState) (dev : Nat) (hinv : motionInv st)
    (hd : dev ∉ st.bad_devices)
    (htimes : ∀ x ∈ evts, (x : GdkEvent × Option Bool).1.time ≠ 0)
    (h : ∃ x ∈ evts, reportsOutOfBand x.1 dev) :
    countBadWarnings dev (runEvents st evts).2.2 = 1 := by
  induction evts generalizing st with
  | nil => simp at h
  | cons eb rest ih =>
    obtain ⟨e, b1⟩ := eb
    simp only [runEvents]
    rw [countBadWarnings_append]
    by_cases htr : reportsOutOfBand e dev
    · obtain ⟨hc1, hmem⟩ :=
        motionNotifyCb_count_trigger st e b1 dev hinv htr hd
      rw [hc1, runEvents_count_flagged rest _ dev hmem]
    · obtain ⟨hc0, hout⟩ :=
        motionNotifyCb_count_no_trigger st e b1 dev htr hd
      rw [hc0]
      have hrest : ∃ x ∈ rest, reportsOutOfBand x.1 dev := by
        rcases h with ⟨x, hx, hxr⟩
        rcases List.mem_cons.mp hx with rfl | hx'
        · exact absurd hxr htr
        · exact ⟨x, hx', hxr⟩
      have het : e.time ≠ 0 := htimes (e, b1) (List.mem_cons_self _ _)
      have htimes' : ∀ x ∈ rest, (x : GdkEvent × Option Bool).1.time ≠ 0 :=
        fun x hx => htimes x (List.mem_cons_of_mem _ hx)
      rw [ih _ (motionNotifyCb_inv st e b1 hinv het) hout htimes' hrest]

theorem emitMotion_nil_pos (dtime : ℚ) (data : MotionData) (h : 0 < dtime) :
    emitMotion [] dtime data = ([(dtime, data)], [], []) := by
  simp [emitMotion, not_lt.mpr h.le, h.ne', h]

/-- A far-out-of-band pressure report falls back to button-derived
pressure: the emitted stroke carries `0.5` when the primary button is
held and `0` otherwise. -/
theorem motionNotifyCb_far_fallback (st : TDWState) (e : GdkEvent)
    (b1 : Option Bool) (t0 p : ℚ)
    (hsens : st.is_sensitive = true) (hdf : st.dragfunc = none)
    (hlt : st.last_event_time = some t0) (ht0 : t0 ≠ 0)
    (hp : e.pressure = some p) (hfar : 1000 < p ∨ p < -1000)
    (hctrl : e.ctrl_mask = false) (hmod : e.mod1_mask = false)
    (hshift : e.shift_mask = false) (hpm : st.pressure_mapping = none)
    (hms : st.motions = []) (ht : t0 < e.time) :
    (motionNotifyCb st e b1).strokes.length = 1 ∧
    ∀ q ∈ (motionNotifyCb st e b1).strokes,
      q.2.pressure = (if b1.getD e.button1_mask = true then (1/2 : ℚ) else 0) := by
  have hdt : 0 < (e.time - t0) / 1000 :=
    div_pos (by linarith) (by norm_num)
  unfold motionNotifyCb
  rw [if_neg (by rw [hsens]; simp)]
  simp only [hlt]
  rw [if_pos ht0]
  simp only [deviceUsed_dragfunc, hdf, hp,
    deviceUsed_bad_devices, deviceUsed_pressure_mapping, deviceUsed_motions,
    hpm, hms, checkPressure_far st.bad_devices e.device p hfar, hctrl, hmod,
    hshift]
  norm_num
  split <;>
  · dsimp only
    rw [emitMotion_nil_pos _ _ hdt]
    simp

/-- C2: an out-of-band pressure within the ±1000 tolerance band passes
through to the brush engine, which clamps it into `[0, 1]`; a value far
outside the band is discarded and pressure is derived from the primary
button state (`0.5` held, `0` released); and the offending device is
flagged exactly once — at most one warning per device over any event
sequence, exactly one when some event of the sequence reports
out-of-band pressure from that device, and none at all once the device
is already flagged. -/
theorem C2_pressure_validation :
    (∀ (bad : List Nat) (dev : Nat) (p : ℚ), ¬(1000 < p ∨ p < -1000) →
      (checkPressure bad dev p).1 = some p ∧
      0 ≤ brushEngineClamp p ∧ brushEngineClamp p ≤ 1 ∧
      (1 < p → brushEngineClamp p = 1) ∧ (p < 0 → brushEngineClamp p = 0)) ∧
    (∀ (bad : List Nat) (dev : Nat) (p : ℚ), 1000 < p ∨ p < -1000 →
      (checkPressure bad dev p).1 = none) ∧
    (∀ (st : TDWState) (e : GdkEvent) (b1 : Option Bool) (t0 p : ℚ),
      st.is_sensitive = true → st.dragfunc = none →
      st.last_event_time = some t0 → t0 ≠ 0 →
      e.pressure = some p → (1000 < p ∨ p < -1000) →
      e.ctrl_mask = false → e.mod1_mask = false → e.shift_mask = false →
      st.pressure_mapping = none → st.motions = [] → t0 < e.time →
      (motionNotifyCb st e b1).strokes.length = 1 ∧
      ∀ q ∈ (motionNotifyCb st e b1).strokes,
        q.2.pressure =
          (if b1.getD e.button1_mask = true then (1/2 : ℚ) else 0)) ∧
    (∀ (evts : List (GdkEvent × Option Bool)) (st : TDWState) (dev : Nat),
      dev ∉ st.bad_devices →
      countBadWarnings dev (runEvents st evts).2.2 ≤ 1) ∧
    (∀ (evts : List (GdkEvent × Option Bool)) (st : TDWState) (dev : Nat),
      motionInv st → dev ∉ st.bad_devices →
      (∀ x ∈ evts, (x : GdkEvent × Option Bool).1.time ≠ 0) →
      (∃ x ∈ evts, reportsOutOfBand x.1 dev) →
      countBadWarnings dev (runEvents st evts).2.2 = 1) ∧
    (∀ (evts : List (GdkEvent × Option Bool)) (st : TDWState) (dev : Nat),
      dev ∈ st.bad_devices →
      countBadWarnings dev (runEvents st evts).2.2 = 0) := by
  refine ⟨?_, checkPressure_far, motionNotifyCb_far_fallback,
    runEvents_count_le_one, runEvents_count_eq_one, runEvents_count_flagged⟩
  intro bad dev p h
  refine ⟨checkPressure_inband bad dev p h, ?_, ?_, ?_, ?_⟩
  · unfold brushEngineClamp
    rcases le_total p 0 with hp | hp
    · rw [max_eq_right hp]
      norm_num
    · rw [max_eq_left hp]
      exact le_min hp (by norm_num)
  · exact min_le_right _ _
  · intro h1
    unfold brushEngineClamp
    rw [max_eq_left (by linarith), min_eq_right (by linarith)]
  · intro h0
    unfold brushEngineClamp
    rw [max_eq_right (by linarith)]
    norm_num

/-- Witness for C2: with a truthy previous timestamp (1 ms), pressure
`1e6` from device 3 with the primary button held emits one stroke at
the nominal pressure `0.5`, and the anomaly is logged exactly once over
the sequence. -/
theorem C2_pressure_validation_witness :
    ((motionNotifyCb { sampleState with last_event_time := some 1 }
        (GdkEvent.mk 5 5 10 3 (some 1000000) none none false false false true)
        (some true)).strokes.length = 1 ∧
      ∀ q ∈ (motionNotifyCb { sampleState with last_event_time := some 1 }
        (GdkEvent.mk 5 5 10 3 (some 1000000) none none false false false true)
        (some true)).strokes,
        q.2.pressure =
          (if (some true).getD
              (GdkEvent.mk 5 5 10 3 (some 1000000) none none false false false
                true).button1_mask = true then (1/2 : ℚ) else 0)) ∧
    countBadWarnings 3 (runEvents { sampleState with last_event_time := some 1 }
      [(GdkEvent.mk 5 5 10 3 (some 1000000) none none false false false true,
        some true)]).2.2 = 1 := by
  constructor
  · exact C2_pressure_validation.2.2.1 _ _ (some true) 1 1000000 rfl rfl rfl
      (by norm_num) rfl (by norm_num) rfl rfl rfl rfl rfl (by norm_num)
  · exact C2_pressure_validation.2.2.2.2.1 _ _ 3
      ⟨rfl, rfl, 1, rfl, by norm_num⟩
      (by simp [sampleState])
      (by
        intro x hx
        rcases List.mem_singleton.mp hx with rfl
        norm_num)
      ⟨(GdkEvent.mk 5 5 10 3 (some 1000000) none none false false false true,
        some true), by simp, rfl, 1000000, rfl, by norm_num⟩

end TiledDraw
